import Mathlib

/-!
# Hyprland workspace module: window map, names, icons, filtering, clicks and display

A shallow embedding of `src/modules/hyprland/workspace.cpp`.  A `std::string` is a
Lean `String` holding the same text; the prefixes, signs and digits the code inspects
are ASCII, where one `Char` is one C++ `char`.  The window map `m_windowMap` (a
`std::vector<WindowRepr>`) is a `List WindowRepr`; a C++ operation that throws
returns `none`.
-/

set_option linter.dupNamespace false

namespace Hyprland

/-! ## Data model -/

/-- The window address type, `using WindowAddress = std::string`. -/
abbrev WindowAddress := String

/-- Modelled from the spec: the record `WindowRepr` is declared in the header
`workspaces.hpp`, outside `workspace.cpp`.  The fields are the ones `workspace.cpp`
reads (`address`, `window_class`, `window_title`, `isActive`) together with the
renderable representation text whose emptiness `empty()` reports. -/
structure WindowRepr where
  address : WindowAddress
  window_class : String
  window_title : String
  repr_rewrite : String
  isActive : Bool
  deriving DecidableEq, Repr

namespace WindowRepr

/-- Modelled from the spec: `WindowRepr::empty()`, true when the window has no
renderable representation. -/
def empty (w : WindowRepr) : Bool := w.repr_rewrite.data.isEmpty

/-- The setter `WindowRepr::setActive(value)`. -/
def setActive (w : WindowRepr) (value : Bool) : WindowRepr := { w with isActive := value }

end WindowRepr

/-- Modelled from the spec: the class `WindowCreationPayload` (the insertion
candidate) is declared in the header `workspaces.hpp`.  A candidate carries the name of its
workspace, its address, class, title and active flag, its representation text, and
the verdict `isEmpty` of the display-mode dependent rejection policy. -/
structure WindowCreationPayload where
  m_workspaceName : String
  m_windowAddress : WindowAddress
  window_class : String
  window_title : String
  repr_rewrite : String
  m_isActive : Bool
  isEmpty : Bool
  deriving DecidableEq, Repr

namespace WindowCreationPayload

/-- Accessor `getAddress()`. -/
def getAddress (p : WindowCreationPayload) : WindowAddress := p.m_windowAddress

/-- Accessor `getWorkspaceName()`. -/
def getWorkspaceName (p : WindowCreationPayload) : String := p.m_workspaceName

/-- Modelled from the spec: `repr(manager)`, the window entry of the candidate; it
carries the candidate's own address. -/
def repr (p : WindowCreationPayload) : WindowRepr :=
  { address := p.m_windowAddress, window_class := p.window_class,
    window_title := p.window_title, repr_rewrite := p.repr_rewrite,
    isActive := p.m_isActive }

end WindowCreationPayload

/-- The reposition policy `Workspaces::ActiveWindowPosition`. -/
inductive ActiveWindowPosition where
  | NONE
  | FIRST
  | LAST
  deriving DecidableEq, Repr

/-! ## Window-map operations -/

/-- The position returned by `std::ranges::find_if`: index of the first element
satisfying `p`, or `none` for the end iterator. -/
def find_if {α : Type} (p : α → Bool) : List α → Option Nat
  | [] => none
  | x :: xs => if p x then some 0 else (find_if p xs).map (· + 1)

/-- `Workspace::closeWindow`: the returned optional and the window map afterwards. -/
def closeWindow (addr : WindowAddress) (m_windowMap : List WindowRepr) :
    Option WindowRepr × List WindowRepr :=
  match find_if (fun window => window.address == addr) m_windowMap with
  | some it => (m_windowMap[it]?, m_windowMap.eraseIdx it)
  | none => (none, m_windowMap)

/-- The first loop of `Workspace::setActiveWindow`, from index `i` on: every
entry gets its flag, and `activeIdx` records the last matching index. -/
def markActive (addr : WindowAddress) :
    List WindowRepr → Nat → Option Nat → List WindowRepr × Option Nat
  | [], _, activeIdx => ([], activeIdx)
  | window :: rest, i, activeIdx =>
    let isActive := window.address == addr
    let r := markActive addr rest (i + 1) (if isActive then some i else activeIdx)
    (window.setActive isActive :: r.1, r.2)

/-- `Workspace::setActiveWindow` under the configured `activeWindowPosition`. -/
def setActiveWindow (activeWindowPos : ActiveWindowPosition) (addr : WindowAddress)
    (m_windowMap : List WindowRepr) : List WindowRepr :=
  let r := markActive addr m_windowMap 0 none
  match r.2 with
  | some activeIdx =>
    if activeWindowPos ≠ ActiveWindowPosition.NONE then
      match r.1[activeIdx]? with
      | some window =>
        let erased := r.1.eraseIdx activeIdx
        if activeWindowPos = ActiveWindowPosition.FIRST then window :: erased
        else if activeWindowPos = ActiveWindowPosition.LAST then erased ++ [window]
        else erased
      | none => r.1
    else r.1
  | none => r.1

/-- `Workspace::insertWindow`, with `enableTaskbar` the manager's taskbar mode. -/
def insertWindow (enableTaskbar : Bool) (create_window_payload : WindowCreationPayload)
    (m_windowMap : List WindowRepr) : List WindowRepr :=
  if !create_window_payload.isEmpty then
    let repr := create_window_payload.repr
    if !repr.empty || enableTaskbar then
      let addr := create_window_payload.getAddress
      match find_if (fun window => window.address == addr) m_windowMap with
      | some it => m_windowMap.set it repr
      | none => m_windowMap ++ [repr]
    else m_windowMap
  else m_windowMap

/-! ## Sequences of window-map calls -/

/-- One call on the window map of a workspace, with the configuration it runs under. -/
inductive WindowOp where
  | insert (enableTaskbar : Bool) (payload : WindowCreationPayload)
  | close (addr : WindowAddress)
  | setActive (pos : ActiveWindowPosition) (addr : WindowAddress)
  deriving DecidableEq, Repr

/-- The window map after one call. -/
def applyOp (m_windowMap : List WindowRepr) : WindowOp → List WindowRepr
  | .insert enableTaskbar payload => insertWindow enableTaskbar payload m_windowMap
  | .close addr => (closeWindow addr m_windowMap).2
  | .setActive pos addr => setActiveWindow pos addr m_windowMap

/-- The window map after a sequence of calls, first call first. -/
def runOps (m_windowMap : List WindowRepr) (ops : List WindowOp) : List WindowRepr :=
  ops.foldl applyOp m_windowMap

/-- A candidate `insertWindow` accepts: both guards of its body pass. -/
def accepted (enableTaskbar : Bool) (payload : WindowCreationPayload) : Bool :=
  !payload.isEmpty && (!payload.repr.empty || enableTaskbar)

/-- The call closes address `a`. -/
def WindowOp.closes (a : WindowAddress) : WindowOp → Bool
  | .close addr => addr == a
  | _ => false

/-- The address a call inserts, if it is an insertion. -/
def WindowOp.inserted : WindowOp → Option WindowAddress
  | .insert _ payload => some payload.getAddress
  | _ => none

/-- The call is an `insertWindow` of an accepted candidate, a `closeWindow`, or a
`setActiveWindow` without repositioning. -/
def WindowOp.plain : WindowOp → Bool
  | .insert enableTaskbar payload => accepted enableTaskbar payload
  | .close _ => true
  | .setActive pos _ => decide (pos = ActiveWindowPosition.NONE)

/-- The addresses inserted by a sequence of calls and not closed afterwards, in
the order of their insertion. -/
def insertedNotClosed : List WindowOp → List WindowAddress
  | [] => []
  | op :: rest =>
    match op.inserted with
    | some a => if rest.any (WindowOp.closes a) then insertedNotClosed rest
                else a :: insertedNotClosed rest
    | none => insertedNotClosed rest

/-! ## Strings -/

/-- The test `std::string::starts_with(p)`. -/
def starts_with (s p : String) : Bool := p.data.isPrefixOf s.data

/-- The call `std::string::substr(pos)`: the tail from `pos` on; it throws
`std::out_of_range` (here `none`) when `pos` exceeds the length. -/
def substr (s : String) (pos : Nat) : Option String :=
  if pos ≤ s.data.length then some ⟨s.data.drop pos⟩ else none

/-! ## Name normalisation at construction -/

/-- The two members the constructor body of `Workspace::Workspace` computes. -/
structure WorkspaceName where
  m_name : String
  m_isSpecial : Bool
  deriving DecidableEq, Repr

/-- The name normalisation in the body of the constructor `Workspace::Workspace`,
from `m_id` and the raw `m_name` of the initialiser list (`m_isSpecial` starts
false); `none` when `substr` throws. -/
def Workspace.Workspace (m_id : Int) (m_name : String) : Option WorkspaceName :=
  if starts_with m_name "name:" then
    (substr m_name 5).map fun n => { m_name := n, m_isSpecial := false }
  else if starts_with m_name "special" then
    (if m_id = -99 then some m_name else substr m_name 8).map
      fun n => { m_name := n, m_isSpecial := true }
  else some { m_name := m_name, m_isSpecial := false }

/-! ## Special-workspace number -/

/-- The capture of the regex `sp(\d+)` matched at the very start of the input:
the maximal digit run after a leading `sp`, which must be non-empty. -/
def matchSpHere : List Char → Option (List Char)
  | c1 :: c2 :: rest =>
    if c1 = 's' ∧ c2 = 'p' then
      let digits := rest.takeWhile Char.isDigit
      if digits.isEmpty then none else some digits
    else none
  | _ => none

/-- The call `std::regex_search(cleanName, match, spRegex)` for `sp(\d+)`: capture
group 1 of the leftmost match (the quantifier is greedy), `none` without a match. -/
def regex_search_sp : List Char → Option (List Char)
  | [] => none
  | c :: cs =>
    match matchSpHere (c :: cs) with
    | some digits => some digits
    | none => regex_search_sp cs

/-- The C locale test `isspace`. -/
def isspace (c : Char) : Bool :=
  c = ' ' || c = '\t' || c = '\n' || c = '\x0b' || c = '\x0c' || c = '\r'

/-- The value of a decimal digit character. -/
def digitValue (c : Char) : Nat := c.toNat - '0'.toNat

/-- The value of a run of decimal digits, most significant first. -/
def decimalValue (digits : List Char) : Nat :=
  digits.foldl (fun acc c => 10 * acc + digitValue c) 0

/-- Largest `int`. -/
def INT_MAX : Int := 2147483647

/-- Smallest `int`. -/
def INT_MIN : Int := -2147483648

/-- The call `std::stoi(str)` in base 10: leading white space is skipped, one sign
is accepted, the longest digit run is converted and what follows it is ignored.
It throws (`none`) `std::invalid_argument` without a digit and `std::out_of_range`
when the value is no `int`. -/
def stoi (str : String) : Option Int :=
  let s := str.data.dropWhile isspace
  let signed : Bool × List Char :=
    match s with
    | c :: rest => if c = '-' then (true, rest) else if c = '+' then (false, rest) else (false, s)
    | [] => (false, s)
  let digits := signed.2.takeWhile Char.isDigit
  if digits.isEmpty then none
  else
    let v : Int := if signed.1 then -(decimalValue digits : Int) else (decimalValue digits : Int)
    if v < INT_MIN ∨ INT_MAX < v then none else some v

/-- The helper `getSpecialWorkspaceNumber`; `none` would be an exception leaving
the function.  The test `match.size() > 1` always holds for a regex with one
capture group, and each `catch (...)` turns a throwing `stoi` into `0`. -/
def getSpecialWorkspaceNumber (name : String) : Option Int :=
  (if starts_with name "special:" then substr name 8 else some name).bind fun cleanName =>
    match regex_search_sp cleanName.data with
    | some m1 => some ((stoi ⟨m1⟩).getD 0)
    | none => some ((stoi cleanName).getD 0)

/-- The name `getSpecialWorkspaceNumber` works on: the input without one leading
`special:`. -/
def cleanedName (name : String) : String :=
  if starts_with name "special:" then ⟨name.data.drop 8⟩ else name

/-- A compiled ignore pattern (`std::regex`), given by the whole-string test
`std::regex_match(s, pattern)` it induces. -/
structure Regex where
  regex_match : String → Bool

/-- Modelled from the spec: the manager class `Workspaces` is declared in the header
`workspaces.hpp`.  The record holds the read-only configuration `workspace.cpp` asks
the manager for; `iconAvailable` stands for the icon loader finding and loading an
icon for a window class. -/
structure Workspaces where
  enableTaskbar : Bool
  activeWindowPosition : ActiveWindowPosition
  moveToMonitor : Bool
  persistentOnly : Bool
  activeOnly : Bool
  specialVisibleOnly : Bool
  deduplicateWindows : Bool
  getIgnoredWindows : List Regex
  showWorkspaceNumber : Bool
  showSpecialWorkspaceNumber : Bool
  taskbarReverseDirection : Bool
  iconAvailable : String → Bool

/-- Modelled from the spec: the data members of the class `Workspace`, declared in the
header `workspaces.hpp`, that `workspace.cpp` reads.  The pointer
`m_pairedSpecialWorkspace` is not a member here: the functions that follow it take
the workspace it points to as an optional argument. -/
structure Workspace where
  m_id : Int
  m_name : String
  m_output : String
  m_windows : Int
  m_isActive : Bool
  m_isSpecial : Bool
  m_isPersistentRule : Bool
  m_isPersistentConfig : Bool
  m_isUrgent : Bool
  m_isVisible : Bool
  m_windowMap : List WindowRepr
  deriving DecidableEq, Repr

namespace Workspace

/-- Accessor `id()`. -/
def id (ws : Hyprland.Workspace) : Int := ws.m_id

/-- Accessor `name()`. -/
def name (ws : Hyprland.Workspace) : String := ws.m_name

/-- Accessor `isActive()`. -/
def isActive (ws : Hyprland.Workspace) : Bool := ws.m_isActive

/-- Accessor `isSpecial()`. -/
def isSpecial (ws : Hyprland.Workspace) : Bool := ws.m_isSpecial

/-- Accessor `isUrgent()`. -/
def isUrgent (ws : Hyprland.Workspace) : Bool := ws.m_isUrgent

/-- Accessor `isVisible()`. -/
def isVisible (ws : Hyprland.Workspace) : Bool := ws.m_isVisible

/-- Modelled from the spec: accessor `isPersistent()`, persistent by rule or by
configuration. -/
def isPersistent (ws : Hyprland.Workspace) : Bool := ws.m_isPersistentRule || ws.m_isPersistentConfig

end Workspace

/-! ## Filtering, emptiness and icon selection -/

/-- `Workspace::shouldSkipWindow`: `find_if` over the ignore list does not reach the
end. -/
def shouldSkipWindow (manager : Workspaces) (window_repr : WindowRepr) : Bool :=
  let ignore_list := manager.getIgnoredWindows
  let it := find_if (fun ignoreItem : Regex =>
    ignoreItem.regex_match window_repr.window_class ||
      ignoreItem.regex_match window_repr.window_title) ignore_list
  it.isSome

/-- `Workspace::isEmpty`. -/
def isEmpty (manager : Workspaces) (ws : Workspace) : Bool :=
  let ignore_list := manager.getIgnoredWindows
  if ignore_list.isEmpty then decide (ws.m_windows = 0)
  else ws.m_windowMap.all (fun window_repr => shouldSkipWindow manager window_repr)

/-- The lookup `icons_map.find(key)` of a `std::map<std::string, std::string>`, the
map given by its entries: the value at `key`, or `none` for the end iterator. -/
def mapFind (icons_map : List (String × String)) (key : String) : Option String :=
  icons_map.lookup key

/-- `Workspace::selectIcon`. -/
def selectIcon (manager : Workspaces) (ws : Workspace) (icons_map : List (String × String)) :
    String :=
  match (if ws.isUrgent then mapFind icons_map "urgent" else none) with
  | some urgentIcon => urgentIcon
  | none =>
  match (if ws.isActive then mapFind icons_map "active" else none) with
  | some activeIcon => activeIcon
  | none =>
  match (if ws.isSpecial then mapFind icons_map "special" else none) with
  | some specialIcon => specialIcon
  | none =>
  match mapFind icons_map ws.name with
  | some namedIcon => namedIcon
  | none =>
  match (if ws.isVisible then mapFind icons_map "visible" else none) with
  | some visibleIcon => visibleIcon
  | none =>
  match (if isEmpty manager ws then mapFind icons_map "empty" else none) with
  | some emptyIcon => emptyIcon
  | none =>
  match (if ws.isPersistent then mapFind icons_map "persistent" else none) with
  | some persistentIcon => persistentIcon
  | none =>
  match mapFind icons_map "default" with
  | some defaultIcon => defaultIcon
  | none => ws.m_name

/-- The candidates of the icon choice in their order, each with the condition under
which it is tried. -/
def iconCandidates (manager : Workspaces) (ws : Workspace) : List (Bool × String) :=
  [(ws.isUrgent, "urgent"), (ws.isActive, "active"), (ws.isSpecial, "special"),
   (true, ws.name), (ws.isVisible, "visible"), (isEmpty manager ws, "empty"),
   (ws.isPersistent, "persistent"), (true, "default")]

/-- The value of the first candidate whose condition holds and whose key is in the
map, or `fallback` when there is none. -/
def firstPresent (icons_map : List (String × String)) (fallback : String) :
    List (Bool × String) → String
  | [] => fallback
  | (cond, key) :: rest =>
    match (if cond then mapFind icons_map key else none) with
    | some v => v
    | none => firstPresent icons_map fallback rest

/-! ## Windows selected for display -/

/-- The filtering loop shared by `Workspace::createWindowIconWidgets` and the lambda
`processWindow` of `Workspace::updateTaskbar`, over the windows in the order given:
the entries that pass the skip test and the class de-duplication, with `seenClasses`
the set of classes seen so far in this pass. -/
def selectedWindows (manager : Workspaces) :
    List WindowRepr → List String → List WindowRepr
  | [], _ => []
  | window_repr :: rest, seenClasses =>
    if shouldSkipWindow manager window_repr then selectedWindows manager rest seenClasses
    else if manager.deduplicateWindows then
      if seenClasses.contains window_repr.window_class then
        selectedWindows manager rest seenClasses
      else window_repr :: selectedWindows manager rest (window_repr.window_class :: seenClasses)
    else window_repr :: selectedWindows manager rest seenClasses

/-- One rendering pass over a window list: `seenClasses` starts empty. -/
def renderPass (manager : Workspaces) (windows : List WindowRepr) : List WindowRepr :=
  selectedWindows manager windows []

/-- The windows `Workspace::updateTaskbar` shows, in the order it packs them. -/
def taskbarWindows (manager : Workspaces) (ws : Workspace) : List WindowRepr :=
  if manager.taskbarReverseDirection then renderPass manager ws.m_windowMap.reverse
  else renderPass manager ws.m_windowMap

/-- The entries of a list that are the first of their class in it. -/
def keepFirstOfClass (earlier : List WindowRepr) : List WindowRepr → List WindowRepr
  | [] => []
  | w :: rest =>
    if earlier.any (fun v => v.window_class == w.window_class) then
      keepFirstOfClass (earlier ++ [w]) rest
    else w :: keepFirstOfClass (earlier ++ [w]) rest

/-! ## Interaction handlers -/

/-- The event types of `GdkEventButton` that reach a button-press handler. -/
inductive GdkEventType where
  | GDK_BUTTON_PRESS
  | GDK_2BUTTON_PRESS
  | GDK_3BUTTON_PRESS
  | GDK_BUTTON_RELEASE
  deriving DecidableEq, Repr

/-- The fields of `GdkEventButton` the handlers read. -/
structure GdkEventButton where
  type : GdkEventType
  button : Nat
  deriving DecidableEq, Repr

/-- The call `std::to_string(int)`. -/
def to_string (i : Int) : String :=
  match i with
  | Int.ofNat n => Nat.repr n
  | Int.negSucc n => "-" ++ Nat.repr (n + 1)

/-- `Workspace::handleClicked`.  The compositor round-trip `m_ipc.getSocket1Reply` is
a function of the command that answers or throws (`none`).  The result is the list
of commands handed to it, in order, and the value the handler returns; a throw is
caught by the handler, which then leaves through its last `return false`. -/
def handleClicked (manager : Workspaces) (ws : Workspace)
    (getSocket1Reply : String → Option String) (bt : GdkEventButton) : List String × Bool :=
  if bt.type = GdkEventType.GDK_BUTTON_PRESS then
    let command :=
      if ws.id > 0 then
        if manager.moveToMonitor then
          "dispatch focusworkspaceoncurrentmonitor " ++ to_string ws.id
        else "dispatch workspace " ++ to_string ws.id
      else if !ws.isSpecial then
        if manager.moveToMonitor then
          "dispatch focusworkspaceoncurrentmonitor name:" ++ ws.name
        else "dispatch workspace name:" ++ ws.name
      else if ws.id ≠ -99 then "dispatch togglespecialworkspace " ++ ws.name
      else "dispatch togglespecialworkspace"
    match getSocket1Reply command with
    | some _ => ([command], true)
    | none => ([command], false)
  else ([], false)

/-- A run of round-trips inside one `try` block that ends in `return true`: the
commands are sent in order until one throws; the throw is caught and the handler
returns false. -/
def sendAll (getSocket1Reply : String → Option String) : List String → List String × Bool
  | [] => ([], true)
  | command :: rest =>
    match getSocket1Reply command with
    | some _ => (command :: (sendAll getSocket1Reply rest).1, (sendAll getSocket1Reply rest).2)
    | none => ([command], false)

/-- `Workspace::handleSpecialWorkspaceClick`, with `m_pairedSpecialWorkspace` the
workspace the pointer of that name refers to, if it is set.  The whole body runs in
one `try` block: an exception, also one leaving `getSpecialWorkspaceNumber`, is caught
and the handler returns false. -/
def handleSpecialWorkspaceClick (manager : Workspaces) (ws : Workspace)
    (m_pairedSpecialWorkspace : Option Workspace)
    (getSocket1Reply : String → Option String) (bt : GdkEventButton) : List String × Bool :=
  if bt.type = GdkEventType.GDK_BUTTON_PRESS ∧ bt.button = 1 then
    match m_pairedSpecialWorkspace with
    | some pairedSpecial =>
      match getSpecialWorkspaceNumber pairedSpecial.name with
      | some special_num =>
        if special_num > 0 then
          sendAll getSocket1Reply
            [if manager.moveToMonitor then
               "dispatch focusworkspaceoncurrentmonitor " ++ to_string special_num
             else "dispatch workspace " ++ to_string special_num,
             "dispatch togglespecialworkspace sp" ++ to_string special_num]
        else
          sendAll getSocket1Reply
            ((if ws.id > 0 then
                [if manager.moveToMonitor then
                   "dispatch focusworkspaceoncurrentmonitor " ++ to_string ws.id
                 else "dispatch workspace " ++ to_string ws.id]
              else []) ++
              ["dispatch togglespecialworkspace " ++ pairedSpecial.name])
      | none => ([], false)
    | none => ([], false)
  else ([], false)

/-! ## Display composition -/

/-- A leaf of the display built by `Workspace::update`: the workspace label, the
special-workspace indicator, the icon of a window (at the scaled-down size or not),
or a superscript number label for the number given. -/
inductive Item where
  | label
  | indicator
  | icon (window : WindowRepr) (smaller : Bool)
  | number (n : Int)
  deriving DecidableEq, Repr

/-- A child of the box `update` packs: a leaf, or the clickable event box of the
paired special workspace with its own children. -/
inductive Widget where
  | item (i : Item)
  | special_event_box (special_box : List Item)
  deriving DecidableEq, Repr

/-- What `update` puts into the content box: the taskbar listing (its windows; the
labels and separators around them are left out), or the box of one of the three
branches of the regular mode; `nothing` is the fall-through of the `else if` chain. -/
inductive Display where
  | taskbar (windows : List WindowRepr)
  | Combined (combined_box : List Widget)
  | Regular (workspace_box : List Widget)
  | Special (workspace_box : List Widget)
  | nothing
  deriving DecidableEq, Repr

/-- `Workspace::createWindowIconWidgets(forceSmaller)`: an icon for every window the
pass selects and the icon loader serves. -/
def createWindowIconWidgets (manager : Workspaces) (ws : Workspace) (forceSmaller : Bool) :
    List Item :=
  ((renderPass manager ws.m_windowMap).filter
    (fun window_repr => manager.iconAvailable window_repr.window_class)).map
    (fun window_repr => Item.icon window_repr (forceSmaller || ws.isSpecial))

/-- The superscript number label of a special workspace named `name`: present when
`getSpecialWorkspaceNumber` gives a positive number. -/
def specialNumberLabel (name : String) : List Item :=
  match getSpecialWorkspaceNumber name with
  | some special_id => if special_id > 0 then [Item.number special_id] else []
  | none => []

/-- The flag `hasSpecialWindows` of the combined branch of `update`. -/
def hasSpecialWindows (pairedSpecial : Workspace) : Bool :=
  decide (pairedSpecial.m_windows > 0) || !pairedSpecial.m_windowMap.isEmpty

/-- The children of `combined_box` in the combined branch of `update`. -/
def combinedBox (manager : Workspaces) (ws pairedSpecial : Workspace) : List Widget :=
  let regular_icons := createWindowIconWidgets manager ws false
  let hasRegularWindows := !regular_icons.isEmpty
  [Widget.item Item.label] ++
  (if hasRegularWindows then
    regular_icons.map Widget.item ++
      (if manager.showWorkspaceNumber && decide (ws.id > 0) then
        [Widget.item (Item.number ws.id)] else [])
   else []) ++
  (if hasSpecialWindows pairedSpecial then
    [Widget.special_event_box
      ([Item.indicator] ++ createWindowIconWidgets manager pairedSpecial true ++
        (if manager.showSpecialWorkspaceNumber && decide (pairedSpecial.id ≠ -99) then
          specialNumberLabel pairedSpecial.name else []))]
   else []) ++
  (if !hasRegularWindows && manager.showWorkspaceNumber && decide (ws.id > 0) then
    [Widget.item (Item.number ws.id)] else [])

/-- `Workspace::update`: `none` when the button is hidden, else what is shown. -/
def update (manager : Workspaces) (ws : Workspace)
    (m_pairedSpecialWorkspace : Option Workspace) : Option Display :=
  if manager.persistentOnly && !ws.isPersistent then none
  else if manager.activeOnly && !ws.isActive && !ws.isPersistent && !ws.isVisible &&
      !ws.isSpecial then none
  else if manager.specialVisibleOnly && ws.isSpecial && !ws.isVisible then none
  else if manager.enableTaskbar then some (Display.taskbar (taskbarWindows manager ws))
  else
    match (if !ws.isSpecial then m_pairedSpecialWorkspace else none) with
    | some pairedSpecial => some (Display.Combined (combinedBox manager ws pairedSpecial))
    | none =>
      if !ws.isSpecial then
        some (Display.Regular
          ([Widget.item Item.label] ++
            (createWindowIconWidgets manager ws false).map Widget.item ++
            (if manager.showWorkspaceNumber && decide (ws.id > 0) then
              [Widget.item (Item.number ws.id)] else [])))
      else if ws.isSpecial then
        some (Display.Special
          ([Widget.item Item.indicator] ++
            (createWindowIconWidgets manager ws true).map Widget.item ++
            (if manager.showSpecialWorkspaceNumber && decide (ws.id ≠ -99) then
              (specialNumberLabel ws.name).map Widget.item else [])))
      else some Display.nothing

/-- The widget is the event box of a paired special workspace. -/
def Widget.isSpecialSection : Widget → Bool
  | Widget.special_event_box _ => true
  | Widget.item _ => false

/-- The display holds the section of a paired special workspace. -/
def Display.hasSpecialSection : Display → Bool
  | Display.Combined combined_box => combined_box.any Widget.isSpecialSection
  | Display.Regular workspace_box => workspace_box.any Widget.isSpecialSection
  | Display.Special workspace_box => workspace_box.any Widget.isSpecialSection
  | Display.taskbar _ => false
  | Display.nothing => false

/-! ## Window-opened routing -/

/-- `Workspace::onWindowOpened`: the value returned and the workspace afterwards. -/
def onWindowOpened (manager : Workspaces) (ws : Workspace)
    (create_window_payload : WindowCreationPayload) : Bool × Workspace :=
  if create_window_payload.getWorkspaceName = ws.name then
    (true, { ws with
      m_windowMap := insertWindow manager.enableTaskbar create_window_payload ws.m_windowMap })
  else (false, ws)

/-! ## Superscript numbers -/

/-- The table `superscripts` of `toSuperscript`. -/
def superscripts : List String := ["⁰", "¹", "²", "³", "⁴", "⁵", "⁶", "⁷", "⁸", "⁹"]

/-- The helper `toSuperscript`.  The table is indexed within its bounds on both
paths: by `digit` only under the test `digit >= 0 && digit <= 9`, by `num` only when
`0 <= num <= 9`. -/
def toSuperscript (num : Int) : String :=
  if num < 0 ∨ num > 9 then
    (to_string num).data.foldl
      (fun result c =>
        let digit : Int := (c.toNat : Int) - ('0'.toNat : Int)
        if digit ≥ 0 ∧ digit ≤ 9 then result ++ superscripts.getD digit.toNat "" else result)
      ""
  else superscripts.getD num.toNat ""

/-- The superscript glyph of a decimal digit character. -/
def glyphOf (c : Char) : String := superscripts.getD (digitValue c) ""

/-- The glyphs of the decimal digits of `n`, most significant digit first, one glyph
for each digit. -/
def glyphString (n : Nat) : String := String.join ((Nat.repr n).data.map glyphOf)

/-! ## Hide rules -/

/-- The workspace is hidden because only persistent workspaces are shown. -/
def hiddenByPersistentOnly (manager : Workspaces) (ws : Workspace) : Prop :=
  manager.persistentOnly = true ∧ ws.isPersistent = false

/-- The workspace is hidden because only active workspaces are shown and it is none
of active, persistent, visible or special. -/
def hiddenByActiveOnly (manager : Workspaces) (ws : Workspace) : Prop :=
  manager.activeOnly = true ∧ ws.isActive = false ∧ ws.isPersistent = false ∧
    ws.isVisible = false ∧ ws.isSpecial = false

/-- The workspace is hidden because it is special and not visible while only visible
special workspaces are shown. -/
def hiddenBySpecialVisibleOnly (manager : Workspaces) (ws : Workspace) : Prop :=
  manager.specialVisibleOnly = true ∧ ws.isSpecial = true ∧ ws.isVisible = false

/-! ## Sample data -/

/-- A terminal window at address `0xa`. -/
def winA : WindowRepr :=
  { address := "0xa", window_class := "kitty", window_title := "shell",
    repr_rewrite := "K", isActive := true }

/-- A browser window at address `0xb`. -/
def winB : WindowRepr :=
  { address := "0xb", window_class := "firefox", window_title := "docs",
    repr_rewrite := "F", isActive := false }

/-- A second terminal window at address `0xc`. -/
def winC : WindowRepr :=
  { address := "0xc", window_class := "kitty", window_title := "logs",
    repr_rewrite := "K", isActive := false }

/-- The insertion candidate that yields the entry `w` on workspace `1`. -/
def payloadOf (w : WindowRepr) : WindowCreationPayload :=
  { m_workspaceName := "1", m_windowAddress := w.address, window_class := w.window_class,
    window_title := w.window_title, repr_rewrite := w.repr_rewrite,
    m_isActive := w.isActive, isEmpty := false }

/-- A run of calls: open `0xa` and `0xb`, close `0xa`, activate `0xb` in place,
open `0xc`. -/
def sampleOps : List WindowOp :=
  [.insert false (payloadOf winA), .insert false (payloadOf winB), .close "0xa",
   .setActive ActiveWindowPosition.NONE "0xb", .insert false (payloadOf winC)]

/-- The ignore pattern `kitty`: it matches the string `kitty` and nothing else. -/
def kittyPattern : Regex := { regex_match := fun s => s == "kitty" }

/-- A manager configuration with every option off and no ignore pattern. -/
def plainManager : Workspaces :=
  { enableTaskbar := false, activeWindowPosition := ActiveWindowPosition.NONE,
    moveToMonitor := false, persistentOnly := false, activeOnly := false,
    specialVisibleOnly := false, deduplicateWindows := false, getIgnoredWindows := [],
    showWorkspaceNumber := false, showSpecialWorkspaceNumber := false,
    taskbarReverseDirection := false, iconAvailable := fun _ => true }

/-- The plain configuration with the ignore pattern `kitty`. -/
def ignoringManager : Workspaces := { plainManager with getIgnoredWindows := [kittyPattern] }

/-- The plain configuration with class de-duplication switched on. -/
def dedupManager : Workspaces := { plainManager with deduplicateWindows := true }

/-- The regular workspace `5`, urgent and active, tracking no window. -/
def workspace5 : Workspace :=
  { m_id := 5, m_name := "5", m_output := "DP-1", m_windows := 0, m_isActive := true,
    m_isSpecial := false, m_isPersistentRule := false, m_isPersistentConfig := false,
    m_isUrgent := true, m_isVisible := true, m_windowMap := [] }

/-- The unnamed special workspace with the sentinel id `-99`. -/
def sentinelSpecial : Workspace :=
  { m_id := -99, m_name := "special", m_output := "DP-1", m_windows := 0,
    m_isActive := false, m_isSpecial := true, m_isPersistentRule := false,
    m_isPersistentConfig := false, m_isUrgent := false, m_isVisible := false,
    m_windowMap := [] }

/-- The special workspace `sp5`, reported and tracked without a window. -/
def specialSp5 : Workspace :=
  { m_id := -98, m_name := "sp5", m_output := "DP-1", m_windows := 0,
    m_isActive := false, m_isSpecial := true, m_isPersistentRule := false,
    m_isPersistentConfig := false, m_isUrgent := false, m_isVisible := false,
    m_windowMap := [] }

/-- An icon map with entries for `urgent` and `active`. -/
def sampleIcons : List (String × String) := [("active", "A"), ("urgent", "U")]

/-- A round-trip that always answers. -/
def replyOk : String → Option String := fun _ => some "ok"

/-- A round-trip that always throws. -/
def replyFails : String → Option String := fun _ => none

/-- A press of the primary button. -/
def primaryPress : GdkEventButton := { type := GdkEventType.GDK_BUTTON_PRESS, button := 1 }

/-- The special workspace `sp5` holding the browser window. -/
def busySp5 : Workspace := { specialSp5 with m_windows := 1, m_windowMap := [winB] }

/-- A regular workspace that is neither active, persistent nor visible. -/
def idleWorkspace : Workspace :=
  { workspace5 with m_isActive := false, m_isUrgent := false, m_isVisible := false }

/-! ## Positions found by `find_if` -/

theorem find_if_eq_none {α : Type} (p : α → Bool) (l : List α)
    (h : ∀ x ∈ l, p x = false) : find_if p l = none := by
  induction l with
  | nil => rfl
  | cons x xs ih =>
    have hx : p x = false := h x (List.mem_cons_self _ _)
    have hxs : ∀ y ∈ xs, p y = false := fun y hy => h y (List.mem_cons_of_mem _ hy)
    simp [find_if, hx, ih hxs]

theorem find_if_append_cons {α : Type} (p : α → Bool) (l1 : List α) (e : α) (l2 : List α)
    (h1 : ∀ x ∈ l1, p x = false) (he : p e = true) :
    find_if p (l1 ++ e :: l2) = some l1.length := by
  induction l1 with
  | nil => simp [find_if, he]
  | cons x xs ih =>
    have hx : p x = false := h1 x (List.mem_cons_self _ _)
    have hxs : ∀ y ∈ xs, p y = false := fun y hy => h1 y (List.mem_cons_of_mem _ hy)
    simp [find_if, hx, ih hxs]

/-- Entries around an entry of a duplicate-free map have other addresses. -/
theorem nodup_split {l1 l2 : List WindowRepr} {e : WindowRepr}
    (hnd : ((l1 ++ e :: l2).map WindowRepr.address).Nodup) :
    (∀ w ∈ l1, w.address ≠ e.address) ∧ (∀ w ∈ l2, w.address ≠ e.address) := by
  rw [List.map_append, List.map_cons] at hnd
  have h := List.nodup_append.mp hnd
  have hcons := List.nodup_cons.mp h.2.1
  refine ⟨fun w hw heq => ?_, fun w hw heq => ?_⟩
  · exact h.2.2 (List.mem_map_of_mem _ hw) (by rw [heq]; exact List.mem_cons_self _ _)
  · exact hcons.1 (by rw [← heq]; exact List.mem_map_of_mem _ hw)

/-! ## `closeWindow` -/

theorem closeWindow_of_absent (addr : WindowAddress) (m : List WindowRepr)
    (h : ∀ w ∈ m, w.address ≠ addr) : closeWindow addr m = (none, m) := by
  have hf : find_if (fun window : WindowRepr => window.address == addr) m = none :=
    find_if_eq_none _ _ (fun w hw => by simpa using h w hw)
  simp [closeWindow, hf]

theorem closeWindow_split (l1 l2 : List WindowRepr) (e : WindowRepr)
    (h1 : ∀ w ∈ l1, w.address ≠ e.address) :
    closeWindow e.address (l1 ++ e :: l2) = (some e, l1 ++ l2) := by
  have hf : find_if (fun window : WindowRepr => window.address == e.address) (l1 ++ e :: l2)
      = some l1.length :=
    find_if_append_cons _ _ _ _ (fun w hw => by simpa using h1 w hw) (by simp)
  simp [closeWindow, hf, List.eraseIdx_append_of_length_le, List.getElem_append_right]

theorem closeWindow_of_mem (m : List WindowRepr) (e : WindowRepr)
    (hnd : (m.map WindowRepr.address).Nodup) (he : e ∈ m) :
    ∃ l1 l2, m = l1 ++ e :: l2 ∧ closeWindow e.address m = (some e, l1 ++ l2) ∧
      ∀ w ∈ l1 ++ l2, w.address ≠ e.address := by
  obtain ⟨l1, l2, rfl⟩ := List.append_of_mem he
  have hs := nodup_split hnd
  refine ⟨l1, l2, rfl, closeWindow_split l1 l2 e hs.1, fun w hw => ?_⟩
  rcases List.mem_append.mp hw with h | h
  · exact hs.1 w h
  · exact hs.2 w h

/-! ## `setActiveWindow` -/

/-- The flag update of the first loop, entry by entry. -/
theorem markActive_fst (addr : WindowAddress) (l : List WindowRepr) (i : Nat) (a : Option Nat) :
    (markActive addr l i a).1 = l.map (fun w => w.setActive (w.address == addr)) := by
  induction l generalizing i a with
  | nil => rfl
  | cons w ws ih => simp [markActive, ih]

theorem markActive_snd_absent (addr : WindowAddress) (l : List WindowRepr) (i : Nat)
    (a : Option Nat) (h : ∀ w ∈ l, w.address ≠ addr) : (markActive addr l i a).2 = a := by
  induction l generalizing i a with
  | nil => rfl
  | cons w ws ih =>
    have hw : w.address ≠ addr := h w (List.mem_cons_self _ _)
    have hws : ∀ y ∈ ws, y.address ≠ addr := fun y hy => h y (List.mem_cons_of_mem _ hy)
    simp [markActive, hw, ih _ _ hws]

theorem markActive_snd_split (l1 l2 : List WindowRepr) (e : WindowRepr) (i : Nat)
    (a : Option Nat) (h2 : ∀ w ∈ l2, w.address ≠ e.address) :
    (markActive e.address (l1 ++ e :: l2) i a).2 = some (i + l1.length) := by
  induction l1 generalizing i a with
  | nil => simp [markActive, markActive_snd_absent _ _ _ _ h2]
  | cons w ws ih =>
    show (markActive e.address (ws ++ e :: l2) (i + 1) _).2 = _
    rw [ih, List.length_cons]
    congr 1
    omega

theorem map_setActive_absent (addr : WindowAddress) (l : List WindowRepr)
    (h : ∀ w ∈ l, w.address ≠ addr) :
    l.map (fun w => w.setActive (w.address == addr)) = l.map (fun w => w.setActive false) := by
  apply List.map_congr_left
  intro w hw
  have : (w.address == addr) = false := by simpa using h w hw
  rw [this]

theorem setActiveWindow_of_absent (pos : ActiveWindowPosition) (addr : WindowAddress)
    (m : List WindowRepr) (h : ∀ w ∈ m, w.address ≠ addr) :
    setActiveWindow pos addr m = m.map (fun w => w.setActive false) := by
  simp [setActiveWindow, markActive_snd_absent _ _ _ _ h, markActive_fst,
    map_setActive_absent _ _ h]

/-- The window map after `setActiveWindow` on the address of an entry `e` that is
the only one with its address: flags set, and `e` relocated as the policy says. -/
theorem setActiveWindow_split (pos : ActiveWindowPosition) (l1 l2 : List WindowRepr)
    (e : WindowRepr) (h1 : ∀ w ∈ l1, w.address ≠ e.address)
    (h2 : ∀ w ∈ l2, w.address ≠ e.address) :
    setActiveWindow pos e.address (l1 ++ e :: l2) =
      match pos with
      | .NONE => l1.map (fun w => w.setActive false) ++
          e.setActive true :: l2.map (fun w => w.setActive false)
      | .FIRST => e.setActive true :: (l1 ++ l2).map (fun w => w.setActive false)
      | .LAST => (l1 ++ l2).map (fun w => w.setActive false) ++ [e.setActive true] := by
  have hfst : (markActive e.address (l1 ++ e :: l2) 0 none).1 =
      l1.map (fun w => w.setActive false) ++
        e.setActive true :: l2.map (fun w => w.setActive false) := by
    rw [markActive_fst, List.map_append, List.map_cons, map_setActive_absent _ _ h1,
      map_setActive_absent _ _ h2]
    simp
  have hsnd := markActive_snd_split l1 l2 e 0 none h2
  have hget : (l1.map (fun w => w.setActive false) ++
      e.setActive true :: l2.map (fun w => w.setActive false))[0 + l1.length]? =
      some (e.setActive true) := by
    rw [List.getElem?_append_right (by simp)]
    simp
  have her : (l1.map (fun w => w.setActive false) ++
      e.setActive true :: l2.map (fun w => w.setActive false)).eraseIdx (0 + l1.length) =
      l1.map (fun w => w.setActive false) ++ l2.map (fun w => w.setActive false) := by
    rw [List.eraseIdx_append_of_length_le (by simp)]
    simp
  unfold setActiveWindow
  simp only [hfst, hsnd, hget, her]
  cases pos <;> simp

@[simp] theorem setActive_address (w : WindowRepr) (b : Bool) :
    (w.setActive b).address = w.address := rfl

theorem map_address_setActive (b : Bool) (l : List WindowRepr) :
    (l.map (fun w => w.setActive b)).map WindowRepr.address = l.map WindowRepr.address := by
  simp [List.map_map, Function.comp_def]

/-- Every entry either carries the address or none does; with distinct addresses
the entry splits the map into two parts free of the address. -/
theorem split_or_absent (addr : WindowAddress) (m : List WindowRepr)
    (hnd : (m.map WindowRepr.address).Nodup) :
    (∀ w ∈ m, w.address ≠ addr) ∨
      ∃ l1 e l2, m = l1 ++ e :: l2 ∧ e.address = addr ∧
        (∀ w ∈ l1, w.address ≠ e.address) ∧ (∀ w ∈ l2, w.address ≠ e.address) := by
  by_cases h : ∀ w ∈ m, w.address ≠ addr
  · exact Or.inl h
  · right
    push_neg at h
    obtain ⟨e, he, hA⟩ := h
    obtain ⟨l1, l2, rfl⟩ := List.append_of_mem he
    exact ⟨l1, e, l2, rfl, hA, nodup_split hnd⟩

/-- With distinct addresses `setActiveWindow` only permutes the addresses. -/
theorem setActiveWindow_perm_address (pos : ActiveWindowPosition) (addr : WindowAddress)
    (m : List WindowRepr) (hnd : (m.map WindowRepr.address).Nodup) :
    ((setActiveWindow pos addr m).map WindowRepr.address).Perm (m.map WindowRepr.address) := by
  rcases split_or_absent addr m hnd with h | ⟨l1, e, l2, rfl, hA, h1, h2⟩
  · rw [setActiveWindow_of_absent pos addr m h, map_address_setActive]
  · rw [← hA, setActiveWindow_split pos l1 l2 e h1 h2]
    cases pos
    · simp [List.map_map, Function.comp_def]
    · simp only [List.map_cons, List.map_append, List.map_map, Function.comp_def,
        setActive_address]
      exact List.perm_middle.symm
    · simp only [List.map_cons, List.map_append, List.map_map, Function.comp_def,
        setActive_address, List.map_nil, List.append_assoc]
      exact List.Perm.append_left _ (List.perm_append_singleton _ _)

/-! ## `insertWindow` -/

theorem insertWindow_of_rejected (t : Bool) (p : WindowCreationPayload) (m : List WindowRepr)
    (h : accepted t p = false) : insertWindow t p m = m := by
  unfold accepted at h
  unfold insertWindow
  by_cases h1 : p.isEmpty = true
  · simp [h1]
  · have h1f : p.isEmpty = false := by simpa using h1
    have h2 : (!p.repr.empty || t) = false := by simpa [h1f] using h
    simp [h1f, h2]

theorem insertWindow_of_accepted (t : Bool) (p : WindowCreationPayload) (m : List WindowRepr)
    (h : accepted t p = true) :
    insertWindow t p m =
      match find_if (fun window : WindowRepr => window.address == p.getAddress) m with
      | some it => m.set it p.repr
      | none => m ++ [p.repr] := by
  unfold accepted at h
  have h1 : p.isEmpty = false := by
    cases hp : p.isEmpty
    · rfl
    · simp [hp] at h
  have h2 : (!p.repr.empty || t) = true := by simpa [h1] using h
  unfold insertWindow
  simp only [h1, Bool.not_false, if_true, h2]

theorem insertWindow_absent (t : Bool) (p : WindowCreationPayload) (m : List WindowRepr)
    (h : accepted t p = true) (hab : ∀ w ∈ m, w.address ≠ p.getAddress) :
    insertWindow t p m = m ++ [p.repr] := by
  rw [insertWindow_of_accepted t p m h,
    find_if_eq_none _ _ (fun w hw => by simpa using hab w hw)]

theorem insertWindow_split (t : Bool) (p : WindowCreationPayload) (l1 l2 : List WindowRepr)
    (e : WindowRepr) (h : accepted t p = true) (he : e.address = p.getAddress)
    (h1 : ∀ w ∈ l1, w.address ≠ p.getAddress) :
    insertWindow t p (l1 ++ e :: l2) = l1 ++ p.repr :: l2 := by
  rw [insertWindow_of_accepted t p _ h,
    find_if_append_cons _ l1 e l2 (fun w hw => by simpa using h1 w hw) (by simpa using he)]
  simp

theorem repr_address (p : WindowCreationPayload) : p.repr.address = p.getAddress := rfl

/-! ## Distinct addresses are preserved -/

theorem insertWindow_nodup (t : Bool) (p : WindowCreationPayload) (m : List WindowRepr)
    (hnd : (m.map WindowRepr.address).Nodup) :
    ((insertWindow t p m).map WindowRepr.address).Nodup := by
  cases h : accepted t p
  · rw [insertWindow_of_rejected t p m h]; exact hnd
  · rcases split_or_absent p.getAddress m hnd with hab | ⟨l1, e, l2, rfl, hA, h1, _⟩
    · rw [insertWindow_absent t p m h hab, List.map_append]
      refine List.Nodup.append hnd (by simp) ?_
      intro a ha hb
      obtain ⟨w, hw, rfl⟩ := List.mem_map.mp ha
      have : w.address = p.getAddress := by simpa [repr_address] using hb
      exact hab w hw this
    · rw [hA] at h1
      rw [insertWindow_split t p l1 l2 e h hA h1]
      simpa [repr_address, hA] using hnd

theorem closeWindow_sublist (addr : WindowAddress) (m : List WindowRepr) :
    (closeWindow addr m).2.Sublist m := by
  unfold closeWindow
  split
  · exact List.eraseIdx_sublist _ _
  · exact List.Sublist.refl _

theorem closeWindow_nodup (addr : WindowAddress) (m : List WindowRepr)
    (hnd : (m.map WindowRepr.address).Nodup) :
    ((closeWindow addr m).2.map WindowRepr.address).Nodup :=
  List.Nodup.sublist ((closeWindow_sublist addr m).map _) hnd

theorem setActiveWindow_nodup (pos : ActiveWindowPosition) (addr : WindowAddress)
    (m : List WindowRepr) (hnd : (m.map WindowRepr.address).Nodup) :
    ((setActiveWindow pos addr m).map WindowRepr.address).Nodup :=
  (setActiveWindow_perm_address pos addr m hnd).nodup_iff.mpr hnd

theorem applyOp_nodup (op : WindowOp) (m : List WindowRepr)
    (hnd : (m.map WindowRepr.address).Nodup) :
    ((applyOp m op).map WindowRepr.address).Nodup := by
  cases op with
  | insert t p => exact insertWindow_nodup t p m hnd
  | close addr => exact closeWindow_nodup addr m hnd
  | setActive pos addr => exact setActiveWindow_nodup pos addr m hnd

theorem runOps_nodup (ops : List WindowOp) (m : List WindowRepr)
    (hnd : (m.map WindowRepr.address).Nodup) :
    ((runOps m ops).map WindowRepr.address).Nodup := by
  induction ops generalizing m with
  | nil => exact hnd
  | cons op rest ih => exact ih (applyOp m op) (applyOp_nodup op m hnd)

/-! ## Sequences of inserts and closes -/

theorem setActiveWindow_NONE (addr : WindowAddress) (m : List WindowRepr) :
    setActiveWindow ActiveWindowPosition.NONE addr m =
      m.map (fun w => w.setActive (w.address == addr)) := by
  unfold setActiveWindow
  simp only [markActive_fst]
  split <;> simp

theorem closeWindow_map_address (addr : WindowAddress) (m : List WindowRepr)
    (hnd : (m.map WindowRepr.address).Nodup) :
    (closeWindow addr m).2.map WindowRepr.address =
      (m.map WindowRepr.address).filter (fun a => !(addr == a)) := by
  rcases split_or_absent addr m hnd with h | ⟨l1, e, l2, rfl, hA, h1, h2⟩
  · rw [closeWindow_of_absent addr m h]
    symm
    apply List.filter_eq_self.mpr
    intro a ha
    obtain ⟨w, hw, rfl⟩ := List.mem_map.mp ha
    simpa using fun heq : addr = w.address => h w hw heq.symm
  · subst hA
    rw [closeWindow_split l1 l2 e h1]
    have f1 : (l1.map WindowRepr.address).filter (fun a => !(e.address == a)) =
        l1.map WindowRepr.address := by
      apply List.filter_eq_self.mpr
      intro a ha
      obtain ⟨w, hw, rfl⟩ := List.mem_map.mp ha
      simpa using fun heq : e.address = w.address => h1 w hw heq.symm
    have f2 : (l2.map WindowRepr.address).filter (fun a => !(e.address == a)) =
        l2.map WindowRepr.address := by
      apply List.filter_eq_self.mpr
      intro a ha
      obtain ⟨w, hw, rfl⟩ := List.mem_map.mp ha
      simpa using fun heq : e.address = w.address => h2 w hw heq.symm
    simp [List.filter_append, List.filter_cons, f1, f2]

/-- The addresses after a run of accepted inserts, closes and flag-only activations,
started from any duplicate-free map whose addresses are not inserted again. -/
theorem runOps_addresses (ops : List WindowOp) (m : List WindowRepr)
    (hplain : ∀ op ∈ ops, op.plain = true)
    (hnd : (m.map WindowRepr.address).Nodup)
    (hins : (ops.filterMap WindowOp.inserted).Nodup)
    (hdisj : ∀ w ∈ m, w.address ∉ ops.filterMap WindowOp.inserted) :
    (runOps m ops).map WindowRepr.address =
      (m.map WindowRepr.address).filter (fun a => !(ops.any (WindowOp.closes a))) ++
        insertedNotClosed ops := by
  induction ops generalizing m with
  | nil => simp [runOps, insertedNotClosed]
  | cons op rest ih =>
    have hplain' : ∀ o ∈ rest, o.plain = true := fun o ho => hplain o (List.mem_cons_of_mem _ ho)
    have hop : op.plain = true := hplain op (List.mem_cons_self _ _)
    show (runOps (applyOp m op) rest).map WindowRepr.address = _
    cases op with
    | insert t p =>
      have hacc : accepted t p = true := hop
      simp only [List.filterMap_cons, WindowOp.inserted] at hins hdisj
      have hab : ∀ w ∈ m, w.address ≠ p.getAddress := fun w hw heq =>
        hdisj w hw (by rw [heq]; exact List.mem_cons_self _ _)
      have hnc := List.nodup_cons.mp hins
      have happ : applyOp m (WindowOp.insert t p) = m ++ [p.repr] :=
        insertWindow_absent t p m hacc hab
      rw [happ]
      have hnd' : ((m ++ [p.repr]).map WindowRepr.address).Nodup := by
        rw [← happ]; exact applyOp_nodup _ m hnd
      have hdisj' : ∀ w ∈ m ++ [p.repr],
          w.address ∉ rest.filterMap WindowOp.inserted := by
        intro w hw
        rcases List.mem_append.mp hw with h | h
        · exact fun hmem => hdisj w h (List.mem_cons_of_mem _ hmem)
        · rw [List.mem_singleton.mp h, repr_address]; exact hnc.1
      rw [ih (m ++ [p.repr]) hplain' hnd' hnc.2 hdisj']
      simp only [List.map_append, List.map_cons, List.map_nil, List.filter_append,
        insertedNotClosed, WindowOp.inserted, List.any_cons, WindowOp.closes, Bool.false_or,
        repr_address]
      cases hc : rest.any (WindowOp.closes p.getAddress) <;> simp [List.filter_cons, hc]
    | close addr =>
      simp only [List.filterMap_cons, WindowOp.inserted] at hins hdisj
      have hdisj' : ∀ w ∈ (closeWindow addr m).2,
          w.address ∉ rest.filterMap WindowOp.inserted :=
        fun w hw => hdisj w ((closeWindow_sublist addr m).subset hw)
      show (runOps (closeWindow addr m).2 rest).map WindowRepr.address = _
      rw [ih _ hplain' (closeWindow_nodup addr m hnd) hins hdisj',
        closeWindow_map_address addr m hnd, List.filter_filter]
      simp only [insertedNotClosed, WindowOp.inserted, List.any_cons, WindowOp.closes,
        Bool.not_or]
      congr 1
      apply List.filter_congr
      intro a _
      exact Bool.and_comm _ _
    | setActive pos addr =>
      have hpos : pos = ActiveWindowPosition.NONE := by simpa [WindowOp.plain] using hop
      subst hpos
      simp only [List.filterMap_cons, WindowOp.inserted] at hins hdisj
      have hmap : (setActiveWindow ActiveWindowPosition.NONE addr m).map WindowRepr.address =
          m.map WindowRepr.address := by
        rw [setActiveWindow_NONE]; simp [List.map_map, Function.comp_def]
      have hdisj' : ∀ w ∈ setActiveWindow ActiveWindowPosition.NONE addr m,
          w.address ∉ rest.filterMap WindowOp.inserted := by
        intro w hw
        have hwa : w.address ∈ m.map WindowRepr.address := by
          rw [← hmap]; exact List.mem_map_of_mem _ hw
        obtain ⟨w0, hw0, heq⟩ := List.mem_map.mp hwa
        rw [← heq]; exact hdisj w0 hw0
      show (runOps (setActiveWindow ActiveWindowPosition.NONE addr m) rest).map
        WindowRepr.address = _
      rw [ih _ hplain' (by rw [hmap]; exact hnd) hins hdisj', hmap]
      simp [insertedNotClosed, WindowOp.inserted, WindowOp.closes]

/-! ## Decimal rendering and `stoi` -/

theorem digitChar_isDigit (k : Nat) (h : k < 10) : (Nat.digitChar k).isDigit = true := by
  interval_cases k <;> decide

theorem digitValue_digitChar (k : Nat) (h : k < 10) : digitValue (Nat.digitChar k) = k := by
  interval_cases k <;> decide

theorem toDigitsCore_all_digit (fuel n : Nat) (acc : List Char)
    (hacc : ∀ c ∈ acc, c.isDigit = true) :
    ∀ c ∈ Nat.toDigitsCore 10 fuel n acc, c.isDigit = true := by
  induction fuel generalizing n acc with
  | zero => simpa [Nat.toDigitsCore] using hacc
  | succ f ih =>
    have hacc' : ∀ c ∈ Nat.digitChar (n % 10) :: acc, c.isDigit = true := by
      intro c hc
      rcases List.mem_cons.mp hc with h | h
      · rw [h]; exact digitChar_isDigit _ (Nat.mod_lt _ (by decide))
      · exact hacc c h
    simp only [Nat.toDigitsCore]
    split
    · exact hacc'
    · exact ih _ _ hacc'

theorem toDigitsCore_ne_nil (fuel n : Nat) (acc : List Char) (h : n < fuel) :
    Nat.toDigitsCore 10 fuel n acc ≠ [] := by
  induction fuel generalizing n acc with
  | zero => omega
  | succ f ih =>
    simp only [Nat.toDigitsCore]
    split
    · simp
    · rename_i hne
      exact ih _ _ (by omega)

theorem toDigitsCore_value (fuel n : Nat) (acc : List Char) (h : n < fuel) :
    (Nat.toDigitsCore 10 fuel n acc).foldl (fun a c => 10 * a + digitValue c) 0 =
      acc.foldl (fun a c => 10 * a + digitValue c) n := by
  induction fuel generalizing n acc with
  | zero => omega
  | succ f ih =>
    simp only [Nat.toDigitsCore]
    split
    · rename_i h0
      have hlt : n < 10 := by omega
      have : n % 10 = n := Nat.mod_eq_of_lt hlt
      simp [List.foldl_cons, digitValue_digitChar n hlt, this]
    · rename_i hne
      rw [ih _ _ (by omega)]
      simp only [List.foldl_cons, digitValue_digitChar _ (Nat.mod_lt n (by decide))]
      congr 1
      omega

theorem digit_facts (c : Char) (h : c.isDigit = true) :
    c ≠ 's' ∧ c ≠ 'e' ∧ c ≠ '-' ∧ c ≠ '+' ∧ isspace c = false := by
  refine ⟨?_, ?_, ?_, ?_, ?_⟩
  · rintro rfl; exact absurd h (by decide)
  · rintro rfl; exact absurd h (by decide)
  · rintro rfl; exact absurd h (by decide)
  · rintro rfl; exact absurd h (by decide)
  · unfold isspace
    simp only [Bool.or_eq_false_iff, decide_eq_false_iff_not]
    refine ⟨⟨⟨⟨⟨?_, ?_⟩, ?_⟩, ?_⟩, ?_⟩, ?_⟩ <;> (rintro rfl; exact absurd h (by decide))

theorem takeWhile_all {α : Type} (p : α → Bool) (l : List α) (h : ∀ x ∈ l, p x = true) :
    l.takeWhile p = l := by
  induction l with
  | nil => rfl
  | cons x xs ih =>
    simp [List.takeWhile_cons, h x (List.mem_cons_self _ _),
      ih (fun y hy => h y (List.mem_cons_of_mem _ hy))]

/-- What `stoi` returns on a non-empty run of digits. -/
theorem stoi_digits (ds : List Char) (hne : ds ≠ []) (hd : ∀ c ∈ ds, c.isDigit = true)
    (hmax : (decimalValue ds : Int) ≤ INT_MAX) :
    stoi ⟨ds⟩ = some (decimalValue ds : Int) := by
  obtain ⟨c, cs, rfl⟩ := List.exists_cons_of_ne_nil hne
  have hc := digit_facts c (hd c (List.mem_cons_self _ _))
  have htw := takeWhile_all Char.isDigit (c :: cs) hd
  have hmin : ¬ ((decimalValue (c :: cs) : Int) < INT_MIN) := by
    have : (0 : Int) ≤ (decimalValue (c :: cs) : Int) := Int.natCast_nonneg _
    unfold INT_MIN; omega
  unfold stoi
  simp only [List.dropWhile_cons, hc.2.2.2.2, Bool.false_eq_true, if_false, hc.2.2.1,
    hc.2.2.2.1, htw]
  simp [hmin, not_lt.mpr hmax]

theorem regex_search_sp_digits (ds : List Char) (hd : ∀ c ∈ ds, c.isDigit = true) :
    regex_search_sp ds = none := by
  induction ds with
  | nil => rfl
  | cons c cs ih =>
    have hc := digit_facts c (hd c (List.mem_cons_self _ _))
    have hm : matchSpHere (c :: cs) = none := by
      cases cs with
      | nil => rfl
      | cons c2 rest => simp [matchSpHere, hc.1]
    simp [regex_search_sp, hm, ih (fun y hy => hd y (List.mem_cons_of_mem _ hy))]

theorem regex_search_sp_sp (ds : List Char) (hne : ds ≠ []) (hd : ∀ c ∈ ds, c.isDigit = true) :
    regex_search_sp ('s' :: 'p' :: ds) = some ds := by
  have htw := takeWhile_all Char.isDigit ds hd
  simp [regex_search_sp, matchSpHere, htw, hne]
theorem sp_append (s : String) : "sp" ++ s = ⟨'s' :: 'p' :: s.data⟩ := by
  apply String.ext
  simp [String.data_append]

theorem special_sp_append (s : String) :
    "special:sp" ++ s = ⟨'s' :: 'p' :: 'e' :: 'c' :: 'i' :: 'a' :: 'l' :: ':' :: 's' :: 'p' :: s.data⟩ := by
  apply String.ext
  simp [String.data_append]

theorem getSpecialWorkspaceNumber_digits (ds : List Char) (hne : ds ≠ [])
    (hd : ∀ c ∈ ds, c.isDigit = true) (hmax : (decimalValue ds : Int) ≤ INT_MAX) :
    getSpecialWorkspaceNumber ⟨ds⟩ = some (decimalValue ds : Int) ∧
    getSpecialWorkspaceNumber ⟨'s' :: 'p' :: ds⟩ = some (decimalValue ds : Int) ∧
    getSpecialWorkspaceNumber
      ⟨'s' :: 'p' :: 'e' :: 'c' :: 'i' :: 'a' :: 'l' :: ':' :: 's' :: 'p' :: ds⟩ =
      some (decimalValue ds : Int) := by
  obtain ⟨c, cs, rfl⟩ := List.exists_cons_of_ne_nil hne
  have hc := digit_facts c (hd c (List.mem_cons_self _ _))
  have hst := stoi_digits (c :: cs) hne hd hmax
  have h1 : starts_with ⟨c :: cs⟩ "special:" = false := by
    simp [starts_with, List.isPrefixOf, Ne.symm hc.1]
  have h2 : starts_with ⟨'s' :: 'p' :: c :: cs⟩ "special:" = false := by
    simp [starts_with, List.isPrefixOf, Ne.symm hc.2.1]
  have h3 : starts_with
      ⟨'s' :: 'p' :: 'e' :: 'c' :: 'i' :: 'a' :: 'l' :: ':' :: 's' :: 'p' :: c :: cs⟩
      "special:" = true := by
    simp [starts_with, List.isPrefixOf]
  refine ⟨?_, ?_, ?_⟩
  · simp [getSpecialWorkspaceNumber, h1, regex_search_sp_digits _ hd, hst]
  · simp [getSpecialWorkspaceNumber, h2, regex_search_sp_sp _ hne hd, hst]
  · simp [getSpecialWorkspaceNumber, h3, substr, regex_search_sp_sp _ hne hd, hst]

theorem repr_facts (n : Nat) :
    (Nat.repr n).data ≠ [] ∧ (∀ c ∈ (Nat.repr n).data, c.isDigit = true) ∧
      decimalValue (Nat.repr n).data = n := by
  refine ⟨toDigitsCore_ne_nil _ _ _ (Nat.lt_succ_self n),
    toDigitsCore_all_digit _ _ _ (by simp), ?_⟩
  have := toDigitsCore_value (n + 1) n [] (Nat.lt_succ_self n)
  simpa [decimalValue] using this

/-! ## Active flags after `setActiveWindow` -/

theorem setActiveWindow_perm_first (pos : ActiveWindowPosition) (l1 l2 : List WindowRepr)
    (e : WindowRepr) (h1 : ∀ w ∈ l1, w.address ≠ e.address)
    (h2 : ∀ w ∈ l2, w.address ≠ e.address) :
    (setActiveWindow pos e.address (l1 ++ e :: l2)).Perm
      (e.setActive true :: (l1 ++ l2).map (fun w => w.setActive false)) := by
  rw [setActiveWindow_split pos l1 l2 e h1 h2]
  cases pos
  · simp only [List.map_append]
    exact List.perm_middle
  · exact List.Perm.refl _
  · exact List.perm_append_singleton _ _

theorem countP_active_cleared (l : List WindowRepr) :
    (l.map (fun w => w.setActive false)).countP (fun w => w.isActive) = 0 := by
  induction l with
  | nil => rfl
  | cons w ws ih => simp [List.countP_cons, WindowRepr.setActive, ih]

/-- The flags of a map that is, up to order, the activated entry `e` and the
cleared other entries. -/
theorem flags_of_perm (L l : List WindowRepr) (e : WindowRepr)
    (hl : ∀ w ∈ l, w.address ≠ e.address)
    (hperm : L.Perm (e.setActive true :: l.map (fun w => w.setActive false))) :
    L.countP (fun w => w.isActive) = 1 ∧
      ∀ w ∈ L, (w.isActive = true ↔ w.address = e.address) := by
  constructor
  · rw [hperm.countP_eq, List.countP_cons, countP_active_cleared]
    simp [WindowRepr.setActive]
  · intro w hw
    rcases List.mem_cons.mp (hperm.mem_iff.mp hw) with h | h
    · subst h; simp [WindowRepr.setActive]
    · obtain ⟨w0, hw0, rfl⟩ := List.mem_map.mp h
      have := hl w0 hw0
      simp [WindowRepr.setActive, this]

theorem setActive_idem (b : Bool) (l : List WindowRepr) :
    (l.map (fun w => w.setActive b)).map (fun w => w.setActive false) =
      l.map (fun w => w.setActive false) := by
  simp [List.map_map, Function.comp_def, WindowRepr.setActive]

/-- Up to the active flags, `setActiveWindow` permutes the entries of a map with
distinct addresses. -/
theorem setActiveWindow_perm_entries (pos : ActiveWindowPosition) (addr : WindowAddress)
    (m : List WindowRepr) (hnd : (m.map WindowRepr.address).Nodup) :
    ((setActiveWindow pos addr m).map (fun w => w.setActive false)).Perm
      (m.map (fun w => w.setActive false)) := by
  rcases split_or_absent addr m hnd with h | ⟨l1, e, l2, rfl, hA, h1, h2⟩
  · rw [setActiveWindow_of_absent pos addr m h, setActive_idem]
  · subst hA
    refine ((setActiveWindow_perm_first pos l1 l2 e h1 h2).map _).trans ?_
    rw [List.map_cons, setActive_idem, List.map_append, List.map_append, List.map_cons]
    exact List.perm_middle.symm

/-! ## The window-map claims -/

/-- C1: for every sequence of `insertWindow` calls with accepted candidates and
`closeWindow` calls (flag-only `setActiveWindow` calls may be interleaved, none that
repositions) run on the empty window map, in which no address is inserted twice, the
addresses of the resulting map are exactly the inserted addresses that are not closed
afterwards, in insertion order. -/
theorem runOps_addresses_from_empty (ops : List WindowOp)
    (hplain : ∀ op ∈ ops, op.plain = true)
    (hins : (ops.filterMap WindowOp.inserted).Nodup) :
    (runOps [] ops).map WindowRepr.address = insertedNotClosed ops := by
  have h := runOps_addresses ops [] hplain (by simp) hins (by simp)
  simpa using h

/-- C2: closing an address that no entry has returns `nullopt` and leaves the
window map exactly as it was. -/
theorem closeWindow_absent_unchanged (m : List WindowRepr) (addr : WindowAddress)
    (h : ∀ w ∈ m, w.address ≠ addr) :
    (closeWindow addr m).1 = none ∧ (closeWindow addr m).2 = m := by
  rw [closeWindow_of_absent addr m h]
  exact ⟨rfl, rfl⟩

/-- C3: in a window map with distinct addresses, closing the address of an entry
`e` returns `e` as it stands in the map, and the map afterwards is the old one with
exactly `e` taken out, the other entries in their order; no entry has the address
any more. -/
theorem closeWindow_present_removes (m : List WindowRepr) (A : WindowAddress) (e : WindowRepr)
    (hnd : (m.map WindowRepr.address).Nodup) (he : e ∈ m) (hA : e.address = A) :
    (closeWindow A m).1 = some e ∧
      (∃ l1 l2, m = l1 ++ e :: l2 ∧ (closeWindow A m).2 = l1 ++ l2) ∧
      (closeWindow A m).2.length + 1 = m.length ∧
      ∀ w ∈ (closeWindow A m).2, w.address ≠ A := by
  subst hA
  obtain ⟨l1, l2, hm, hc, hno⟩ := closeWindow_of_mem m e hnd he
  rw [hc]
  refine ⟨rfl, ⟨l1, l2, hm, rfl⟩, ?_, hno⟩
  rw [hm]
  simp only [List.length_append, List.length_cons]
  omega

/-- C4: in a window map with distinct addresses, after `setActiveWindow(A)` under any
reposition policy: if an entry has address `A`, exactly one entry is active and the
active entries are those with address `A`; if none has, no entry is active. -/
theorem setActiveWindow_flags (pos : ActiveWindowPosition) (A : WindowAddress)
    (m : List WindowRepr) (hnd : (m.map WindowRepr.address).Nodup) :
    ((∃ w ∈ m, w.address = A) →
      (setActiveWindow pos A m).countP (fun w => w.isActive) = 1 ∧
      (∃ w ∈ setActiveWindow pos A m, w.address = A) ∧
      ∀ w ∈ setActiveWindow pos A m, (w.isActive = true ↔ w.address = A)) ∧
    ((∀ w ∈ m, w.address ≠ A) → ∀ w ∈ setActiveWindow pos A m, w.isActive = false) := by
  constructor
  · rintro ⟨w, hw, hwA⟩
    rcases split_or_absent A m hnd with h | ⟨l1, e, l2, rfl, hA, h1, h2⟩
    · exact absurd hwA (h w hw)
    · subst hA
      have hl : ∀ w ∈ l1 ++ l2, w.address ≠ e.address := by
        intro x hx
        rcases List.mem_append.mp hx with hx | hx
        · exact h1 x hx
        · exact h2 x hx
      have hperm := setActiveWindow_perm_first pos l1 l2 e h1 h2
      have hf := flags_of_perm _ _ e hl hperm
      exact ⟨hf.1, ⟨e.setActive true, hperm.mem_iff.mpr (List.mem_cons_self _ _), rfl⟩, hf.2⟩
  · intro h w hw
    rw [setActiveWindow_of_absent pos A m h] at hw
    obtain ⟨w0, _, rfl⟩ := List.mem_map.mp hw
    rfl

/-- C5: in a window map with distinct addresses that holds an entry `e` with address
`A`, `setActiveWindow(A)` gives `e` (now active) followed by the other entries in their
order under `FIRST`, the other entries in their order followed by `e` under `LAST`, and
the entries in place under `NONE`; the order of addresses never changes under `NONE`,
nor under any policy when `A` is absent; and in every case the result is a permutation
of the original entries up to their active flags. -/
theorem setActiveWindow_reposition (A : WindowAddress) (m : List WindowRepr)
    (hnd : (m.map WindowRepr.address).Nodup) :
    (∀ l1 e l2, m = l1 ++ e :: l2 → e.address = A →
      setActiveWindow ActiveWindowPosition.FIRST A m =
        e.setActive true :: (l1 ++ l2).map (fun w => w.setActive false) ∧
      setActiveWindow ActiveWindowPosition.LAST A m =
        (l1 ++ l2).map (fun w => w.setActive false) ++ [e.setActive true] ∧
      setActiveWindow ActiveWindowPosition.NONE A m =
        l1.map (fun w => w.setActive false) ++
          e.setActive true :: l2.map (fun w => w.setActive false)) ∧
    (setActiveWindow ActiveWindowPosition.NONE A m).map WindowRepr.address =
      m.map WindowRepr.address ∧
    ((∀ w ∈ m, w.address ≠ A) → ∀ pos,
      setActiveWindow pos A m = m.map (fun w => w.setActive false) ∧
      (setActiveWindow pos A m).map WindowRepr.address = m.map WindowRepr.address) ∧
    (∀ pos, ((setActiveWindow pos A m).map (fun w => w.setActive false)).Perm
      (m.map (fun w => w.setActive false))) := by
  refine ⟨?_, ?_, ?_, fun pos => setActiveWindow_perm_entries pos A m hnd⟩
  · rintro l1 e l2 rfl rfl
    have hs := nodup_split hnd
    exact ⟨setActiveWindow_split _ l1 l2 e hs.1 hs.2, setActiveWindow_split _ l1 l2 e hs.1 hs.2,
      setActiveWindow_split _ l1 l2 e hs.1 hs.2⟩
  · rw [setActiveWindow_NONE]
    simp [List.map_map, Function.comp_def]
  · intro h pos
    rw [setActiveWindow_of_absent pos A m h]
    exact ⟨rfl, map_address_setActive false m⟩

/-- C6: distinct addresses are an invariant of the window map: they stay distinct
after any `insertWindow` (new or present address, accepted or not), any `closeWindow`
and any `setActiveWindow` under any policy, hence after any sequence of such calls, and
the map built from the empty one by any sequence of calls has distinct addresses. -/
theorem address_uniqueness_invariant (m : List WindowRepr)
    (hnd : (m.map WindowRepr.address).Nodup) :
    (∀ t p, ((insertWindow t p m).map WindowRepr.address).Nodup) ∧
    (∀ addr, ((closeWindow addr m).2.map WindowRepr.address).Nodup) ∧
    (∀ pos addr, ((setActiveWindow pos addr m).map WindowRepr.address).Nodup) ∧
    (∀ ops, ((runOps m ops).map WindowRepr.address).Nodup) ∧
    (∀ ops, ((runOps [] ops).map WindowRepr.address).Nodup) :=
  ⟨fun t p => insertWindow_nodup t p m hnd, fun addr => closeWindow_nodup addr m hnd,
    fun pos addr => setActiveWindow_nodup pos addr m hnd, fun ops => runOps_nodup ops m hnd,
    fun ops => runOps_nodup ops [] (by simp)⟩

theorem runOps_addresses_from_empty_witness :
    (∀ op ∈ sampleOps, op.plain = true) ∧
      (sampleOps.filterMap WindowOp.inserted).Nodup ∧
      (runOps [] sampleOps).map WindowRepr.address = ["0xb", "0xc"] :=
  ⟨by decide, by decide,
    (runOps_addresses_from_empty sampleOps (by decide) (by decide)).trans (by decide)⟩

theorem closeWindow_absent_unchanged_witness :
    (∀ w ∈ [winA, winB], w.address ≠ "0xc") ∧
      (closeWindow "0xc" [winA, winB]).1 = none ∧
      (closeWindow "0xc" [winA, winB]).2 = [winA, winB] :=
  ⟨by decide, closeWindow_absent_unchanged [winA, winB] "0xc" (by decide)⟩

theorem closeWindow_present_removes_witness :
    (closeWindow "0xb" [winA, winB, winC]).1 = some winB ∧
      (closeWindow "0xb" [winA, winB, winC]).2 = [winA, winC] := by
  have h := closeWindow_present_removes [winA, winB, winC] "0xb" winB (by decide) (by decide) rfl
  exact ⟨h.1, by decide⟩

theorem setActiveWindow_flags_witness :
    (setActiveWindow ActiveWindowPosition.LAST "0xb" [winA, winB, winC]).countP
        (fun w => w.isActive) = 1 ∧
      ∀ w ∈ setActiveWindow ActiveWindowPosition.FIRST "0xd" [winA, winB, winC],
        w.isActive = false :=
  ⟨((setActiveWindow_flags ActiveWindowPosition.LAST "0xb" [winA, winB, winC]
      (by decide)).1 ⟨winB, by decide, rfl⟩).1,
    (setActiveWindow_flags ActiveWindowPosition.FIRST "0xd" [winA, winB, winC]
      (by decide)).2 (by decide)⟩

theorem setActiveWindow_reposition_witness :
    setActiveWindow ActiveWindowPosition.FIRST "0xb" [winA, winB, winC] =
        [winB.setActive true, winA.setActive false, winC] ∧
      setActiveWindow ActiveWindowPosition.LAST "0xb" [winA, winB, winC] =
        [winA.setActive false, winC, winB.setActive true] ∧
      setActiveWindow ActiveWindowPosition.NONE "0xb" [winA, winB, winC] =
        [winA.setActive false, winB.setActive true, winC] :=
  (setActiveWindow_reposition "0xb" [winA, winB, winC] (by decide)).1
    [winA] winB [winC] rfl rfl

theorem address_uniqueness_invariant_witness :
    ([winA, winB].map WindowRepr.address).Nodup ∧
      ((insertWindow false (payloadOf winB) [winA, winB]).map WindowRepr.address).Nodup ∧
      ((runOps [winA, winB] sampleOps).map WindowRepr.address).Nodup :=
  ⟨by decide, (address_uniqueness_invariant [winA, winB] (by decide)).1 false (payloadOf winB),
    (address_uniqueness_invariant [winA, winB] (by decide)).2.2.2.1 sampleOps⟩


/-! ## Name normalisation -/

theorem name_append (s : String) : "name:" ++ s = ⟨'n' :: 'a' :: 'm' :: 'e' :: ':' :: s.data⟩ := by
  apply String.ext
  simp [String.data_append]

theorem special_append (s : String) :
    "special:" ++ s = ⟨'s' :: 'p' :: 'e' :: 'c' :: 'i' :: 'a' :: 'l' :: ':' :: s.data⟩ := by
  apply String.ext
  simp [String.data_append]

theorem Workspace_of_name (id : Int) (s : String) :
    Workspace.Workspace id ("name:" ++ s) = some { m_name := s, m_isSpecial := false } := by
  rw [name_append]
  simp [Workspace.Workspace, starts_with, substr, List.isPrefixOf]

theorem Workspace_of_special (id : Int) (hid : id ≠ -99) (s : String) :
    Workspace.Workspace id ("special:" ++ s) = some { m_name := s, m_isSpecial := true } := by
  rw [special_append]
  simp [Workspace.Workspace, starts_with, substr, List.isPrefixOf, hid]

theorem not_name_of_special (raw : String) (h : starts_with raw "special" = true) :
    starts_with raw "name:" = false := by
  unfold starts_with at *
  cases hd : raw.data with
  | nil => rw [hd] at h; simp [List.isPrefixOf] at h
  | cons c cs =>
    rw [hd] at h
    have hc : c = 's' := by
      have : ('s' == c) = true := by
        simp only [List.isPrefixOf, Bool.and_eq_true] at h
        exact h.1
      exact (eq_of_beq this).symm
    subst hc
    simp [List.isPrefixOf]

theorem Workspace_of_sentinel (raw : String) (h : starts_with raw "special" = true) :
    Workspace.Workspace (-99) raw = some { m_name := raw, m_isSpecial := true } := by
  simp [Workspace.Workspace, not_name_of_special raw h, h]

theorem Workspace_of_other (id : Int) (raw : String) (h1 : starts_with raw "name:" = false)
    (h2 : starts_with raw "special" = false) :
    Workspace.Workspace id raw = some { m_name := raw, m_isSpecial := false } := by
  simp [Workspace.Workspace, h1, h2]

/-! ## The fallback of `getSpecialWorkspaceNumber` -/

theorem substr_of_starts_with (name : String) (h : starts_with name "special:" = true) :
    substr name 8 = some ⟨name.data.drop 8⟩ := by
  unfold starts_with at h
  have hp := List.isPrefixOf_iff_prefix.mp h
  have hl : 8 ≤ name.data.length := hp.length_le
  unfold substr
  rw [if_pos hl]

theorem getSpecialWorkspaceNumber_eq (name : String) :
    getSpecialWorkspaceNumber name =
      match regex_search_sp (cleanedName name).data with
      | some m1 => some ((stoi ⟨m1⟩).getD 0)
      | none => some ((stoi (cleanedName name)).getD 0) := by
  unfold getSpecialWorkspaceNumber cleanedName
  cases h : starts_with name "special:"
  · simp
  · simp [substr_of_starts_with name h]

/-- On a run of digits whose value is no `int`, `stoi` throws. -/
theorem stoi_digits_overflow (ds : List Char) (hne : ds ≠ [])
    (hd : ∀ c ∈ ds, c.isDigit = true) (hbig : INT_MAX < (decimalValue ds : Int)) :
    stoi ⟨ds⟩ = none := by
  obtain ⟨c, cs, rfl⟩ := List.exists_cons_of_ne_nil hne
  have hc := digit_facts c (hd c (List.mem_cons_self _ _))
  have htw := takeWhile_all Char.isDigit (c :: cs) hd
  unfold stoi
  simp only [List.dropWhile_cons, hc.2.2.2.2, Bool.false_eq_true, if_false, hc.2.2.1,
    hc.2.2.2.1, htw]
  simp [hbig]

/-- C7: name normalisation at construction.  A raw name `"name:" ++ s` becomes `s`,
not special; a raw name `"special:" ++ s` with an id other than `-99` becomes `s`,
special; a raw name starting with `"special"` with id `-99` is kept, special; a raw
name starting with neither `"name:"` nor `"special"` is kept, not special. -/
theorem name_normalisation (id : Int) (s raw : String) :
    Workspace.Workspace id ("name:" ++ s) = some { m_name := s, m_isSpecial := false } ∧
    (id ≠ -99 →
      Workspace.Workspace id ("special:" ++ s) = some { m_name := s, m_isSpecial := true }) ∧
    (starts_with raw "special" = true →
      Workspace.Workspace (-99) raw = some { m_name := raw, m_isSpecial := true }) ∧
    (starts_with raw "name:" = false → starts_with raw "special" = false →
      Workspace.Workspace id raw = some { m_name := raw, m_isSpecial := false }) :=
  ⟨Workspace_of_name id s, fun hid => Workspace_of_special id hid s,
    fun h => Workspace_of_sentinel raw h, fun h1 h2 => Workspace_of_other id raw h1 h2⟩

theorem name_normalisation_witness :
    Workspace.Workspace 5 "name:foo" = some { m_name := "foo", m_isSpecial := false } ∧
    Workspace.Workspace 5 "special:sp3" = some { m_name := "sp3", m_isSpecial := true } ∧
    Workspace.Workspace (-99) "special:sp3" =
      some { m_name := "special:sp3", m_isSpecial := true } ∧
    Workspace.Workspace 5 "7" = some { m_name := "7", m_isSpecial := false } :=
  ⟨(name_normalisation 5 "foo" "").1, (name_normalisation 5 "sp3" "").2.1 (by decide),
    (name_normalisation 5 "" "special:sp3").2.2.1 (by decide),
    (name_normalisation 5 "" "7").2.2.2 (by decide) (by decide)⟩

/-- C8, as stated, fails: with id `5` the raw name `"name:name:foo"` is stored as
`"name:foo"`, which still starts with `"name:"`. -/
theorem normalised_name_keeps_prefix :
    ¬ ∀ (id : Int) (raw : String) (n : WorkspaceName), id ≠ -99 →
      Workspace.Workspace id raw = some n →
      starts_with n.m_name "name:" = false ∧ starts_with n.m_name "special:" = false := by
  intro h
  have h5 := h 5 "name:name:foo" { m_name := "name:foo", m_isSpecial := false }
    (by decide) (by decide)
  exact absurd h5.1 (by decide)

/-- C8, amended: the constructor strips one leading prefix.  For an id other than
`-99` and a rest `s` that starts with neither `"name:"` nor `"special:"`, the raw names
`"name:" ++ s` and `"special:" ++ s`, and the raw name `s` itself when it does not start
with `"special"`, are stored as `s`, which starts with neither prefix. -/
theorem normalised_name_single_strip (id : Int) (hid : id ≠ -99) (s raw : String)
    (h1 : starts_with s "name:" = false) (h2 : starts_with s "special:" = false)
    (hraw : raw = "name:" ++ s ∨ raw = "special:" ++ s ∨
      (raw = s ∧ starts_with s "special" = false)) :
    ∃ n, Workspace.Workspace id raw = some n ∧ n.m_name = s ∧
      starts_with n.m_name "name:" = false ∧ starts_with n.m_name "special:" = false := by
  rcases hraw with rfl | rfl | ⟨rfl, h3⟩
  · exact ⟨_, Workspace_of_name id s, rfl, h1, h2⟩
  · exact ⟨_, Workspace_of_special id hid s, rfl, h1, h2⟩
  · exact ⟨_, Workspace_of_other id raw h1 h3, rfl, h1, h2⟩

theorem normalised_name_single_strip_witness :
    ∃ n, Workspace.Workspace 5 "special:sp3" = some n ∧ n.m_name = "sp3" ∧
      starts_with n.m_name "name:" = false ∧ starts_with n.m_name "special:" = false :=
  normalised_name_single_strip 5 (by decide) "sp3" "special:sp3" (by decide) (by decide)
    (Or.inr (Or.inl (by decide)))

/-- C9: for every natural number `n` that fits a 32-bit signed `int`, with `d` its
decimal rendering, `getSpecialWorkspaceNumber` gives `n` on `"sp" ++ d`, on
`"special:sp" ++ d` and on `d`. -/
theorem getSpecialWorkspaceNumber_decimal (n : Nat) (hn : (n : Int) ≤ INT_MAX) :
    getSpecialWorkspaceNumber ("sp" ++ Nat.repr n) = some (n : Int) ∧
    getSpecialWorkspaceNumber ("special:sp" ++ Nat.repr n) = some (n : Int) ∧
    getSpecialWorkspaceNumber (Nat.repr n) = some (n : Int) := by
  obtain ⟨hne, hd, hv⟩ := repr_facts n
  have h := getSpecialWorkspaceNumber_digits (Nat.repr n).data hne hd (by rw [hv]; exact hn)
  rw [hv] at h
  rw [sp_append, special_sp_append]
  exact ⟨h.2.1, h.2.2, h.1⟩

theorem getSpecialWorkspaceNumber_decimal_witness :
    getSpecialWorkspaceNumber "special:sp12" = some 12 ∧
    getSpecialWorkspaceNumber "sp7" = some 7 ∧
    getSpecialWorkspaceNumber "42" = some 42 :=
  ⟨(getSpecialWorkspaceNumber_decimal 12 (by decide)).2.1,
    (getSpecialWorkspaceNumber_decimal 7 (by decide)).1,
    (getSpecialWorkspaceNumber_decimal 42 (by decide)).2.2⟩

theorem getSpecialWorkspaceNumber_isSome (name : String) :
    ∃ v, getSpecialWorkspaceNumber name = some v := by
  rw [getSpecialWorkspaceNumber_eq]
  split
  · exact ⟨_, rfl⟩
  · exact ⟨_, rfl⟩

/-! ## Filtering, emptiness, icon choice -/

theorem find_if_isSome {α : Type} (p : α → Bool) (l : List α) :
    (find_if p l).isSome = true ↔ ∃ x ∈ l, p x = true := by
  induction l with
  | nil => simp [find_if]
  | cons x xs ih =>
    by_cases hx : p x = true
    · simp [find_if, hx]
    · have hx' : p x = false := by simpa using hx
      simp [find_if, hx', ih]

theorem shouldSkipWindow_iff (manager : Workspaces) (w : WindowRepr) :
    shouldSkipWindow manager w = true ↔
      ∃ pattern ∈ manager.getIgnoredWindows,
        pattern.regex_match w.window_class = true ∨ pattern.regex_match w.window_title = true := by
  unfold shouldSkipWindow
  simp only [find_if_isSome, Bool.or_eq_true]

theorem selectIcon_eq_firstPresent (manager : Workspaces) (ws : Workspace)
    (icons_map : List (String × String)) :
    selectIcon manager ws icons_map =
      firstPresent icons_map ws.name (iconCandidates manager ws) := rfl

theorem selectIcon_urgent (manager : Workspaces) (ws : Workspace)
    (icons_map : List (String × String)) (v : String) (hu : ws.isUrgent = true)
    (hv : mapFind icons_map "urgent" = some v) : selectIcon manager ws icons_map = v := by
  simp [selectIcon, hu, hv]

theorem getSpecialWorkspaceNumber_overflow (ds : List Char) (hne : ds ≠ [])
    (hd : ∀ c ∈ ds, c.isDigit = true) (hbig : INT_MAX < (decimalValue ds : Int)) :
    getSpecialWorkspaceNumber ⟨ds⟩ = some 0 ∧
    getSpecialWorkspaceNumber ⟨'s' :: 'p' :: ds⟩ = some 0 ∧
    getSpecialWorkspaceNumber
      ⟨'s' :: 'p' :: 'e' :: 'c' :: 'i' :: 'a' :: 'l' :: ':' :: 's' :: 'p' :: ds⟩ = some 0 := by
  obtain ⟨c, cs, rfl⟩ := List.exists_cons_of_ne_nil hne
  have hc := digit_facts c (hd c (List.mem_cons_self _ _))
  have hst := stoi_digits_overflow (c :: cs) hne hd hbig
  have h1 : starts_with ⟨c :: cs⟩ "special:" = false := by
    simp [starts_with, List.isPrefixOf, Ne.symm hc.1]
  have h2 : starts_with ⟨'s' :: 'p' :: c :: cs⟩ "special:" = false := by
    simp [starts_with, List.isPrefixOf, Ne.symm hc.2.1]
  have h3 : starts_with
      ⟨'s' :: 'p' :: 'e' :: 'c' :: 'i' :: 'a' :: 'l' :: ':' :: 's' :: 'p' :: c :: cs⟩
      "special:" = true := by
    simp [starts_with, List.isPrefixOf]
  refine ⟨?_, ?_, ?_⟩
  · simp [getSpecialWorkspaceNumber, h1, regex_search_sp_digits _ hd, hst]
  · simp [getSpecialWorkspaceNumber, h2, regex_search_sp_sp _ hne hd, hst]
  · simp [getSpecialWorkspaceNumber, h3, substr, regex_search_sp_sp _ hne hd, hst]

theorem firstPresent_none (icons_map : List (String × String)) (fallback : String)
    (cands : List (Bool × String))
    (h : ∀ c ∈ cands, c.1 = true → mapFind icons_map c.2 = none) :
    firstPresent icons_map fallback cands = fallback := by
  induction cands with
  | nil => rfl
  | cons c rest ih =>
    obtain ⟨cond, key⟩ := c
    have hrest := ih (fun d hd => h d (List.mem_cons_of_mem _ hd))
    have hc := h (cond, key) (List.mem_cons_self _ _)
    cases cond
    · simp [firstPresent, hrest]
    · simp [firstPresent, hc rfl, hrest]

theorem firstPresent_split (icons_map : List (String × String)) (fallback : String)
    (pre post : List (Bool × String)) (c : Bool × String) (v : String)
    (hpre : ∀ d ∈ pre, d.1 = true → mapFind icons_map d.2 = none)
    (hc : c.1 = true) (hv : mapFind icons_map c.2 = some v) :
    firstPresent icons_map fallback (pre ++ c :: post) = v := by
  induction pre with
  | nil =>
    obtain ⟨cond, key⟩ := c
    simp only at hc hv
    simp [firstPresent, hc, hv]
  | cons d rest ih =>
    obtain ⟨cond, key⟩ := d
    have hrest := ih (fun e he => hpre e (List.mem_cons_of_mem _ he))
    have hd := hpre (cond, key) (List.mem_cons_self _ _)
    cases cond
    · simp [firstPresent, hrest]
    · simp [firstPresent, hd rfl, hrest]

/-! ## The claims on totality, icons, emptiness and filtering -/

/-- C11: `getSpecialWorkspaceNumber` is total.  On every input, the empty string
included, it returns an integer and no exception leaves it; whenever the `stoi` it
applies throws, in the `sp<digits>` path or in the whole-string path, it returns `0`,
as for a digit run beyond the range of a 32-bit `int`. -/
theorem getSpecialWorkspaceNumber_total (name : String) :
    (∃ v, getSpecialWorkspaceNumber name = some v) ∧
    (∀ m1, regex_search_sp (cleanedName name).data = some m1 → stoi ⟨m1⟩ = none →
      getSpecialWorkspaceNumber name = some 0) ∧
    (regex_search_sp (cleanedName name).data = none → stoi (cleanedName name) = none →
      getSpecialWorkspaceNumber name = some 0) ∧
    (∀ ds, ds ≠ [] → (∀ c ∈ ds, c.isDigit = true) → INT_MAX < (decimalValue ds : Int) →
      getSpecialWorkspaceNumber ⟨ds⟩ = some 0 ∧
      getSpecialWorkspaceNumber ⟨'s' :: 'p' :: ds⟩ = some 0) ∧
    getSpecialWorkspaceNumber "" = some 0 := by
  refine ⟨getSpecialWorkspaceNumber_isSome name, ?_, ?_, ?_, by decide⟩
  · intro m1 hm hs
    rw [getSpecialWorkspaceNumber_eq, hm]
    simp [hs]
  · intro hm hs
    rw [getSpecialWorkspaceNumber_eq, hm]
    simp [hs]
  · intro ds hne hd hbig
    have h := getSpecialWorkspaceNumber_overflow ds hne hd hbig
    exact ⟨h.1, h.2.1⟩

theorem getSpecialWorkspaceNumber_total_witness :
    getSpecialWorkspaceNumber "99999999999" = some 0 ∧
    getSpecialWorkspaceNumber "sp99999999999" = some 0 ∧
    getSpecialWorkspaceNumber "abc" = some 0 :=
  ⟨((getSpecialWorkspaceNumber_total "").2.2.2.1 "99999999999".data (by decide) (by decide)
      (by decide)).1,
    ((getSpecialWorkspaceNumber_total "").2.2.2.1 "99999999999".data (by decide) (by decide)
      (by decide)).2,
    (getSpecialWorkspaceNumber_total "abc").2.2.1 (by decide) (by decide)⟩

/-- C12: `selectIcon` returns the map value of the first candidate, in the order
urgent, active, special, own name, visible, empty, persistent, default, whose condition
holds and whose key is in the map, and the workspace name when there is none; an urgent
workspace with an `urgent` entry gets that entry whatever else holds. -/
theorem selectIcon_priority (manager : Workspaces) (ws : Workspace)
    (icons_map : List (String × String)) :
    selectIcon manager ws icons_map =
      firstPresent icons_map ws.name (iconCandidates manager ws) ∧
    (∀ pre c post v, iconCandidates manager ws = pre ++ c :: post →
      (∀ d ∈ pre, d.1 = true → mapFind icons_map d.2 = none) →
      c.1 = true → mapFind icons_map c.2 = some v → selectIcon manager ws icons_map = v) ∧
    ((∀ c ∈ iconCandidates manager ws, c.1 = true → mapFind icons_map c.2 = none) →
      selectIcon manager ws icons_map = ws.name) ∧
    (∀ v, ws.isUrgent = true → mapFind icons_map "urgent" = some v →
      selectIcon manager ws icons_map = v) := by
  refine ⟨rfl, ?_, ?_, ?_⟩
  · intro pre c post v hsplit hpre hc hv
    rw [selectIcon_eq_firstPresent, hsplit]
    exact firstPresent_split icons_map ws.name pre post c v hpre hc hv
  · intro h
    rw [selectIcon_eq_firstPresent]
    exact firstPresent_none icons_map ws.name _ h
  · intro v hu hv
    exact selectIcon_urgent manager ws icons_map v hu hv

theorem selectIcon_priority_witness :
    selectIcon plainManager workspace5 sampleIcons = "U" :=
  (selectIcon_priority plainManager workspace5 sampleIcons).2.2.2 "U" (by decide) (by decide)

/-- C13: with an empty ignore list `isEmpty()` holds exactly when the reported window
count is `0`, whatever the tracked list is; with a non-empty ignore list it holds
exactly when every tracked entry is skipped by `shouldSkipWindow`, whatever the
reported count is. -/
theorem isEmpty_cases (manager : Workspaces) (ws : Workspace) :
    (manager.getIgnoredWindows = [] → (isEmpty manager ws = true ↔ ws.m_windows = 0)) ∧
    (manager.getIgnoredWindows ≠ [] →
      (isEmpty manager ws = true ↔
        ∀ w ∈ ws.m_windowMap, shouldSkipWindow manager w = true)) := by
  constructor
  · intro h
    simp [isEmpty, h]
  · intro h
    have hne : manager.getIgnoredWindows.isEmpty = false := by
      cases hl : manager.getIgnoredWindows with
      | nil => exact absurd hl h
      | cons _ _ => rfl
    simp [isEmpty, hne]

theorem isEmpty_cases_witness :
    isEmpty plainManager { workspace5 with m_windows := 0, m_windowMap := [winA] } = true ∧
    isEmpty ignoringManager { workspace5 with m_windows := 2, m_windowMap := [winA, winC] }
      = true ∧
    isEmpty ignoringManager { workspace5 with m_windows := 0, m_windowMap := [winA, winB] }
      = false :=
  ⟨((isEmpty_cases plainManager
      { workspace5 with m_windows := 0, m_windowMap := [winA] }).1 rfl).mpr rfl,
    ((isEmpty_cases ignoringManager
      { workspace5 with m_windows := 2, m_windowMap := [winA, winC] }).2
        (List.cons_ne_nil _ _)).mpr
      (by decide),
    by
      have h := (isEmpty_cases ignoringManager
        { workspace5 with m_windows := 0, m_windowMap := [winA, winB] }).2
        (List.cons_ne_nil _ _)
      cases hE : isEmpty ignoringManager
        { workspace5 with m_windows := 0, m_windowMap := [winA, winB] } with
      | false => rfl
      | true => exact absurd (h.mp hE winB (by decide)) (by decide)⟩

/-- C14: `shouldSkipWindow` holds exactly when some pattern of the ignore list matches
the whole class or the whole title of the entry; so it fails for every entry under an
empty list, and an entry skipped under one list is skipped under every list that
holds the same patterns and more. -/
theorem shouldSkipWindow_spec (manager : Workspaces) (w : WindowRepr) :
    (shouldSkipWindow manager w = true ↔
      ∃ pattern ∈ manager.getIgnoredWindows,
        pattern.regex_match w.window_class = true ∨
          pattern.regex_match w.window_title = true) ∧
    (manager.getIgnoredWindows = [] → shouldSkipWindow manager w = false) ∧
    (∀ larger : Workspaces,
      (∀ pattern ∈ manager.getIgnoredWindows, pattern ∈ larger.getIgnoredWindows) →
      shouldSkipWindow manager w = true → shouldSkipWindow larger w = true) := by
  refine ⟨shouldSkipWindow_iff manager w, ?_, ?_⟩
  · intro h
    cases hs : shouldSkipWindow manager w with
    | false => rfl
    | true =>
      obtain ⟨p, hp, _⟩ := (shouldSkipWindow_iff manager w).mp hs
      rw [h] at hp
      exact absurd hp (List.not_mem_nil _)
  · intro larger hsub hs
    obtain ⟨p, hp, hm⟩ := (shouldSkipWindow_iff manager w).mp hs
    exact (shouldSkipWindow_iff larger w).mpr ⟨p, hsub p hp, hm⟩

theorem shouldSkipWindow_spec_witness :
    shouldSkipWindow plainManager winA = false ∧
    shouldSkipWindow { plainManager with getIgnoredWindows := [kittyPattern, kittyPattern] }
      winA = true :=
  ⟨(shouldSkipWindow_spec plainManager winA).2.1 rfl,
    (shouldSkipWindow_spec ignoringManager winA).2.2
      { plainManager with getIgnoredWindows := [kittyPattern, kittyPattern] }
      (by intro p hp; exact List.mem_cons_of_mem _ hp) (by decide)⟩

/-! ## Interaction handlers -/

theorem sendAll_ok (getSocket1Reply : String → Option String)
    (hok : ∀ c, (getSocket1Reply c).isSome = true) (cmds : List String) :
    sendAll getSocket1Reply cmds = (cmds, true) := by
  induction cmds with
  | nil => rfl
  | cons c rest ih =>
    obtain ⟨r, hr⟩ := Option.isSome_iff_exists.mp (hok c)
    simp [sendAll, hr, ih]

theorem handleClicked_not_press (manager : Workspaces) (ws : Workspace)
    (getSocket1Reply : String → Option String) (bt : GdkEventButton)
    (h : bt.type ≠ GdkEventType.GDK_BUTTON_PRESS) :
    handleClicked manager ws getSocket1Reply bt = ([], false) := by
  simp [handleClicked, h]

/-- On a press `handleClicked` hands one command to the round-trip and returns
whether the round-trip answered. -/
theorem handleClicked_press (manager : Workspaces) (ws : Workspace)
    (getSocket1Reply : String → Option String) (bt : GdkEventButton)
    (h : bt.type = GdkEventType.GDK_BUTTON_PRESS) :
    ∃ command, handleClicked manager ws getSocket1Reply bt =
      ([command], (getSocket1Reply command).isSome) := by
  unfold handleClicked
  simp only [h, if_true]
  generalize (if ws.id > 0 then _ else _ : String) = command
  refine ⟨command, ?_⟩
  cases getSocket1Reply command <;> rfl

/-- The command `handleClicked` hands to the round-trip on a press. -/
theorem handleClicked_sent (manager : Workspaces) (ws : Workspace)
    (getSocket1Reply : String → Option String) (bt : GdkEventButton)
    (h : bt.type = GdkEventType.GDK_BUTTON_PRESS) :
    (handleClicked manager ws getSocket1Reply bt).1 =
      [if ws.id > 0 then
        if manager.moveToMonitor then
          "dispatch focusworkspaceoncurrentmonitor " ++ to_string ws.id
        else "dispatch workspace " ++ to_string ws.id
      else if !ws.isSpecial then
        if manager.moveToMonitor then
          "dispatch focusworkspaceoncurrentmonitor name:" ++ ws.name
        else "dispatch workspace name:" ++ ws.name
      else if ws.id ≠ -99 then "dispatch togglespecialworkspace " ++ ws.name
      else "dispatch togglespecialworkspace"] := by
  unfold handleClicked
  simp only [h, if_true]
  split <;> rfl

theorem handleSpecialWorkspaceClick_not_primary (manager : Workspaces) (ws : Workspace)
    (paired : Option Workspace) (getSocket1Reply : String → Option String)
    (bt : GdkEventButton)
    (h : bt.type ≠ GdkEventType.GDK_BUTTON_PRESS ∨ bt.button ≠ 1) :
    handleSpecialWorkspaceClick manager ws paired getSocket1Reply bt = ([], false) := by
  unfold handleSpecialWorkspaceClick
  have : ¬ (bt.type = GdkEventType.GDK_BUTTON_PRESS ∧ bt.button = 1) := by
    rintro ⟨h1, h2⟩
    rcases h with h | h
    · exact h h1
    · exact h h2
  rw [if_neg this]

/-! ## The claims on the interaction handlers -/

/-- C15: on a press `handleClicked` issues exactly one compositor command: for
`id > 0` the focus command with the id (`focusworkspaceoncurrentmonitor` when
move-to-monitor is on, `workspace` otherwise); for `id <= 0` and a workspace that is
not special the same two commands with `name:` and the name; for a special workspace
with `id <= 0` other than `-99` the toggle command with the name; for the special
workspace with id `-99` the bare toggle command. -/
theorem handleClicked_command (manager : Workspaces) (ws : Workspace)
    (getSocket1Reply : String → Option String) (bt : GdkEventButton)
    (hpress : bt.type = GdkEventType.GDK_BUTTON_PRESS) :
    (handleClicked manager ws getSocket1Reply bt).1.length = 1 ∧
    (ws.id > 0 → manager.moveToMonitor = true →
      (handleClicked manager ws getSocket1Reply bt).1 =
        ["dispatch focusworkspaceoncurrentmonitor " ++ to_string ws.id]) ∧
    (ws.id > 0 → manager.moveToMonitor = false →
      (handleClicked manager ws getSocket1Reply bt).1 =
        ["dispatch workspace " ++ to_string ws.id]) ∧
    (ws.id ≤ 0 → ws.isSpecial = false → manager.moveToMonitor = true →
      (handleClicked manager ws getSocket1Reply bt).1 =
        ["dispatch focusworkspaceoncurrentmonitor name:" ++ ws.name]) ∧
    (ws.id ≤ 0 → ws.isSpecial = false → manager.moveToMonitor = false →
      (handleClicked manager ws getSocket1Reply bt).1 =
        ["dispatch workspace name:" ++ ws.name]) ∧
    (ws.id ≤ 0 → ws.isSpecial = true → ws.id ≠ -99 →
      (handleClicked manager ws getSocket1Reply bt).1 =
        ["dispatch togglespecialworkspace " ++ ws.name]) ∧
    (ws.isSpecial = true → ws.id = -99 →
      (handleClicked manager ws getSocket1Reply bt).1 =
        ["dispatch togglespecialworkspace"]) := by
  have hs := handleClicked_sent manager ws getSocket1Reply bt hpress
  refine ⟨?_, ?_, ?_, ?_, ?_, ?_, ?_⟩
  · rw [hs]; rfl
  · intro h1 h2
    rw [hs]; simp [h1, h2]
  · intro h1 h2
    rw [hs]; simp [h1, h2]
  · intro h1 h2 h3
    rw [hs]; simp [not_lt.mpr h1, h2, h3]
  · intro h1 h2 h3
    rw [hs]; simp [not_lt.mpr h1, h2, h3]
  · intro h1 h2 h3
    rw [hs]; simp [not_lt.mpr h1, h2, h3]
  · intro h2 h3
    have h1 : ¬ ws.id > 0 := by rw [h3]; decide
    rw [hs]; simp [h1, h2, h3]

theorem handleClicked_command_witness :
    (handleClicked plainManager workspace5 replyOk primaryPress).1 = ["dispatch workspace 5"] ∧
    (handleClicked plainManager sentinelSpecial replyOk primaryPress).1 =
      ["dispatch togglespecialworkspace"] :=
  ⟨(handleClicked_command plainManager workspace5 replyOk primaryPress rfl).2.2.1
      (by decide) rfl,
    (handleClicked_command plainManager sentinelSpecial replyOk primaryPress rfl).2.2.2.2.2.2
      rfl rfl⟩

/-- C16, as stated, fails: on a press whose round-trip throws, `handleClicked`
catches the exception and leaves through `return false`. -/
theorem handleClicked_failure_not_handled :
    ¬ ∀ (manager : Workspaces) (ws : Workspace) (getSocket1Reply : String → Option String)
      (bt : GdkEventButton), bt.type = GdkEventType.GDK_BUTTON_PRESS →
      (handleClicked manager ws getSocket1Reply bt).2 = true := by
  intro h
  exact absurd (h plainManager workspace5 replyFails primaryPress rfl) (by decide)

/-- C16, amended: on a press `handleClicked` hands one command to the compositor; it
returns true when the round-trip answers, and when the round-trip throws it catches
the exception (nothing is raised to the caller) and returns false.  On an event that
is not a press it returns false and issues no command. -/
theorem handleClicked_result (manager : Workspaces) (ws : Workspace)
    (getSocket1Reply : String → Option String) (bt : GdkEventButton) :
    (bt.type = GdkEventType.GDK_BUTTON_PRESS →
      ∃ command, (handleClicked manager ws getSocket1Reply bt).1 = [command] ∧
        ((getSocket1Reply command).isSome = true →
          (handleClicked manager ws getSocket1Reply bt).2 = true) ∧
        (getSocket1Reply command = none →
          (handleClicked manager ws getSocket1Reply bt).2 = false)) ∧
    (bt.type ≠ GdkEventType.GDK_BUTTON_PRESS →
      handleClicked manager ws getSocket1Reply bt = ([], false)) := by
  constructor
  · intro hpress
    obtain ⟨c, hc⟩ := handleClicked_press manager ws getSocket1Reply bt hpress
    refine ⟨c, by rw [hc], ?_, ?_⟩
    · intro hs; rw [hc]; exact hs
    · intro hn; rw [hc]; simp [hn]
  · exact handleClicked_not_press manager ws getSocket1Reply bt

theorem handleClicked_result_witness :
    handleClicked plainManager workspace5 replyOk
        { type := GdkEventType.GDK_BUTTON_RELEASE, button := 1 } = ([], false) ∧
    ∃ command, (handleClicked plainManager workspace5 replyFails primaryPress).1 = [command] ∧
      ((replyFails command).isSome = true →
        (handleClicked plainManager workspace5 replyFails primaryPress).2 = true) ∧
      (replyFails command = none →
        (handleClicked plainManager workspace5 replyFails primaryPress).2 = false) :=
  ⟨(handleClicked_result plainManager workspace5 replyOk
      { type := GdkEventType.GDK_BUTTON_RELEASE, button := 1 }).2 (by decide),
    (handleClicked_result plainManager workspace5 replyFails primaryPress).1 rfl⟩

/-- C17: on a primary-button press on the special region of a workspace with a paired
special workspace, with `n` the number `getSpecialWorkspaceNumber` gives for the paired
name and every round-trip answering: for `n > 0` exactly two commands are issued, the
focus command for workspace `n` and then `dispatch togglespecialworkspace sp<n>`; for
`n <= 0` the focus command for the workspace's own id when that id is positive (none
otherwise), followed by the toggle command with the paired name. -/
theorem handleSpecialWorkspaceClick_commands (manager : Workspaces) (ws pairedSpecial : Workspace)
    (getSocket1Reply : String → Option String) (bt : GdkEventButton) (n : Int)
    (hpress : bt.type = GdkEventType.GDK_BUTTON_PRESS) (hbutton : bt.button = 1)
    (hn : getSpecialWorkspaceNumber pairedSpecial.name = some n)
    (hok : ∀ c, (getSocket1Reply c).isSome = true) :
    (n > 0 →
      handleSpecialWorkspaceClick manager ws (some pairedSpecial) getSocket1Reply bt =
        ([if manager.moveToMonitor then "dispatch focusworkspaceoncurrentmonitor " ++ to_string n
          else "dispatch workspace " ++ to_string n,
          "dispatch togglespecialworkspace sp" ++ to_string n], true)) ∧
    (n ≤ 0 → ws.id > 0 →
      handleSpecialWorkspaceClick manager ws (some pairedSpecial) getSocket1Reply bt =
        ([if manager.moveToMonitor then
            "dispatch focusworkspaceoncurrentmonitor " ++ to_string ws.id
          else "dispatch workspace " ++ to_string ws.id,
          "dispatch togglespecialworkspace " ++ pairedSpecial.name], true)) ∧
    (n ≤ 0 → ws.id ≤ 0 →
      handleSpecialWorkspaceClick manager ws (some pairedSpecial) getSocket1Reply bt =
        (["dispatch togglespecialworkspace " ++ pairedSpecial.name], true)) := by
  have hcond : bt.type = GdkEventType.GDK_BUTTON_PRESS ∧ bt.button = 1 := ⟨hpress, hbutton⟩
  refine ⟨?_, ?_, ?_⟩
  · intro hpos
    unfold handleSpecialWorkspaceClick
    simp only [if_pos hcond, hn, if_pos hpos, sendAll_ok getSocket1Reply hok]
  · intro hle hid
    unfold handleSpecialWorkspaceClick
    simp only [if_pos hcond, hn, if_neg (not_lt.mpr hle), if_pos hid,
      sendAll_ok getSocket1Reply hok, List.singleton_append]
  · intro hle hid
    unfold handleSpecialWorkspaceClick
    simp only [if_pos hcond, hn, if_neg (not_lt.mpr hle), if_neg (not_lt.mpr hid),
      sendAll_ok getSocket1Reply hok, List.nil_append]

theorem handleSpecialWorkspaceClick_commands_witness :
    handleSpecialWorkspaceClick plainManager workspace5 (some specialSp5) replyOk primaryPress =
      (["dispatch workspace 5", "dispatch togglespecialworkspace sp5"], true) ∧
    handleSpecialWorkspaceClick plainManager workspace5 (some sentinelSpecial) replyOk
      primaryPress =
      (["dispatch workspace 5", "dispatch togglespecialworkspace special"], true) :=
  ⟨(handleSpecialWorkspaceClick_commands plainManager workspace5 specialSp5 replyOk
      primaryPress 5 rfl rfl (by decide) (fun _ => rfl)).1 (by decide),
    (handleSpecialWorkspaceClick_commands plainManager workspace5 sentinelSpecial replyOk
      primaryPress 0 rfl rfl (by decide) (fun _ => rfl)).2.1 (by decide) (by decide)⟩

/-- C18: `handleSpecialWorkspaceClick` consumes the click only on a press of the
primary button: on an event that is not a press, or whose button is not button 1, it
returns false and issues no compositor command; whenever it returns true the event is
a press of button 1. -/
theorem handleSpecialWorkspaceClick_primary_only (manager : Workspaces) (ws : Workspace)
    (m_pairedSpecialWorkspace : Option Workspace)
    (getSocket1Reply : String → Option String) (bt : GdkEventButton) :
    ((bt.type ≠ GdkEventType.GDK_BUTTON_PRESS ∨ bt.button ≠ 1) →
      handleSpecialWorkspaceClick manager ws m_pairedSpecialWorkspace getSocket1Reply bt =
        ([], false)) ∧
    ((handleSpecialWorkspaceClick manager ws m_pairedSpecialWorkspace getSocket1Reply bt).2
        = true →
      bt.type = GdkEventType.GDK_BUTTON_PRESS ∧ bt.button = 1) := by
  constructor
  · exact handleSpecialWorkspaceClick_not_primary manager ws m_pairedSpecialWorkspace
      getSocket1Reply bt
  · intro h
    by_contra hc
    have hor : bt.type ≠ GdkEventType.GDK_BUTTON_PRESS ∨ bt.button ≠ 1 := by
      by_cases h1 : bt.type = GdkEventType.GDK_BUTTON_PRESS
      · right
        intro h2
        exact hc ⟨h1, h2⟩
      · exact Or.inl h1
    rw [handleSpecialWorkspaceClick_not_primary manager ws m_pairedSpecialWorkspace
      getSocket1Reply bt hor] at h
    exact absurd h (by decide)

theorem handleSpecialWorkspaceClick_primary_only_witness :
    handleSpecialWorkspaceClick plainManager workspace5 (some specialSp5) replyOk
        { type := GdkEventType.GDK_BUTTON_PRESS, button := 3 } = ([], false) ∧
    handleSpecialWorkspaceClick plainManager workspace5 (some specialSp5) replyOk
        { type := GdkEventType.GDK_2BUTTON_PRESS, button := 1 } = ([], false) :=
  ⟨(handleSpecialWorkspaceClick_primary_only plainManager workspace5 (some specialSp5) replyOk
      { type := GdkEventType.GDK_BUTTON_PRESS, button := 3 }).1 (Or.inr (by decide)),
    (handleSpecialWorkspaceClick_primary_only plainManager workspace5 (some specialSp5) replyOk
      { type := GdkEventType.GDK_2BUTTON_PRESS, button := 1 }).1 (Or.inl (by decide))⟩

/-! ## Windows selected in a rendering pass -/

theorem selectedWindows_no_dedup (manager : Workspaces) (h : manager.deduplicateWindows = false)
    (l : List WindowRepr) (seen : List String) :
    selectedWindows manager l seen = l.filter (fun w => !shouldSkipWindow manager w) := by
  induction l generalizing seen with
  | nil => rfl
  | cons w rest ih =>
    cases hs : shouldSkipWindow manager w <;>
      simp [selectedWindows, hs, h, ih]

/-- With de-duplication on, the loop keeps the non-skipped entries that are the first
of their class, as long as `seenClasses` holds the classes of the earlier ones. -/
theorem selectedWindows_dedup (manager : Workspaces) (h : manager.deduplicateWindows = true)
    (l : List WindowRepr) (seen : List String) (earlier : List WindowRepr)
    (hinv : ∀ c, c ∈ seen ↔ c ∈ earlier.map WindowRepr.window_class) :
    selectedWindows manager l seen =
      keepFirstOfClass earlier (l.filter (fun w => !shouldSkipWindow manager w)) := by
  induction l generalizing seen earlier with
  | nil => rfl
  | cons w rest ih =>
    cases hs : shouldSkipWindow manager w
    · by_cases hmem : w.window_class ∈ seen
      · have ha : earlier.any (fun v => v.window_class == w.window_class) = true := by
          obtain ⟨v, hv, hc⟩ := List.mem_map.mp ((hinv _).mp hmem)
          exact List.any_eq_true.mpr ⟨v, hv, by simpa using hc⟩
        have hinv' : ∀ c, c ∈ seen ↔ c ∈ (earlier ++ [w]).map WindowRepr.window_class := by
          intro c
          simp only [List.map_append, List.map_cons, List.map_nil, List.mem_append,
            List.mem_singleton, ← hinv]
          constructor
          · exact Or.inl
          · rintro (hc' | hc')
            · exact hc'
            · rw [hc']; exact hmem
        simp [selectedWindows, hs, h, hmem, keepFirstOfClass, ha, ih _ _ hinv']
      · have ha : earlier.any (fun v => v.window_class == w.window_class) = false := by
          cases hb : earlier.any (fun v => v.window_class == w.window_class)
          · rfl
          · obtain ⟨v, hv, hc⟩ := List.any_eq_true.mp hb
            exact absurd ((hinv _).mpr (List.mem_map.mpr ⟨v, hv, by simpa using hc⟩)) hmem
        have hinv' : ∀ c, c ∈ w.window_class :: seen ↔
            c ∈ (earlier ++ [w]).map WindowRepr.window_class := by
          intro c
          simp only [List.mem_cons, hinv, List.map_append, List.map_cons, List.map_nil,
            List.mem_append, List.mem_singleton]
          tauto
        simp [selectedWindows, hs, h, hmem, keepFirstOfClass, ha, ih _ _ hinv']
    · simp [selectedWindows, hs, ih _ _ hinv]

theorem keepFirstOfClass_sublist (earlier l : List WindowRepr) :
    (keepFirstOfClass earlier l).Sublist l := by
  induction l generalizing earlier with
  | nil => exact List.Sublist.refl _
  | cons w rest ih =>
    unfold keepFirstOfClass
    split
    · exact (ih _).cons _
    · exact (ih _).cons₂ _

theorem keepFirstOfClass_fresh (earlier l : List WindowRepr) :
    ∀ w ∈ keepFirstOfClass earlier l,
      w.window_class ∉ earlier.map WindowRepr.window_class := by
  induction l generalizing earlier with
  | nil => intro w hw; cases hw
  | cons v rest ih =>
    intro w hw
    unfold keepFirstOfClass at hw
    have hrest : ∀ x ∈ keepFirstOfClass (earlier ++ [v]) rest,
        x.window_class ∉ earlier.map WindowRepr.window_class := by
      intro x hx hmem
      exact ih (earlier ++ [v]) x hx (by simp only [List.map_append, List.mem_append]; exact Or.inl hmem)
    split at hw
    · exact hrest w hw
    · rename_i hany
      rcases List.mem_cons.mp hw with heq | hw'
      · subst heq
        intro hmem
        apply hany
        obtain ⟨u, hu, hc⟩ := List.mem_map.mp hmem
        exact List.any_eq_true.mpr ⟨u, hu, by simpa using hc⟩
      · exact hrest w hw'

theorem keepFirstOfClass_nodup (earlier l : List WindowRepr) :
    ((keepFirstOfClass earlier l).map WindowRepr.window_class).Nodup := by
  induction l generalizing earlier with
  | nil => exact List.nodup_nil
  | cons v rest ih =>
    unfold keepFirstOfClass
    split
    · exact ih _
    · rw [List.map_cons, List.nodup_cons]
      refine ⟨?_, ih _⟩
      intro hmem
      obtain ⟨u, hu, hc⟩ := List.mem_map.mp hmem
      exact keepFirstOfClass_fresh (earlier ++ [v]) rest u hu (by simp [hc])

theorem keepFirstOfClass_covers (earlier l : List WindowRepr) :
    ∀ w ∈ l, w.window_class ∈ earlier.map WindowRepr.window_class ∨
      w.window_class ∈ (keepFirstOfClass earlier l).map WindowRepr.window_class := by
  induction l generalizing earlier with
  | nil => intro w hw; cases hw
  | cons v rest ih =>
    intro w hw
    by_cases hany : earlier.any (fun u => u.window_class == v.window_class) = true
    · have hv : v.window_class ∈ earlier.map WindowRepr.window_class := by
        obtain ⟨u, hu, hc⟩ := List.any_eq_true.mp hany
        exact List.mem_map.mpr ⟨u, hu, by simpa using hc⟩
      rcases List.mem_cons.mp hw with heq | hw'
      · subst heq; exact Or.inl hv
      · rcases ih (earlier ++ [v]) w hw' with h | h
        · simp only [List.map_append, List.map_cons, List.map_nil, List.mem_append,
            List.mem_singleton] at h
          rcases h with h | h
          · exact Or.inl h
          · left; rw [h]; exact hv
        · right
          simpa [keepFirstOfClass, hany] using h
    · have hres : keepFirstOfClass earlier (v :: rest) =
          v :: keepFirstOfClass (earlier ++ [v]) rest := by
        simp [keepFirstOfClass, hany]
      rw [hres, List.map_cons]
      rcases List.mem_cons.mp hw with heq | hw'
      · subst heq
        exact Or.inr (List.mem_cons_self _ _)
      · rcases ih (earlier ++ [v]) w hw' with h | h
        · simp only [List.map_append, List.map_cons, List.map_nil, List.mem_append,
            List.mem_singleton] at h
          rcases h with h | h
          · exact Or.inl h
          · right; rw [h]; exact List.mem_cons_self _ _
        · exact Or.inr (List.mem_cons_of_mem _ h)

theorem shouldSkipWindow_congr (manager other : Workspaces)
    (h : other.getIgnoredWindows = manager.getIgnoredWindows) (w : WindowRepr) :
    shouldSkipWindow other w = shouldSkipWindow manager w := by
  simp [shouldSkipWindow, h]

theorem selectedWindows_congr (manager other : Workspaces)
    (hd : other.deduplicateWindows = manager.deduplicateWindows)
    (hi : other.getIgnoredWindows = manager.getIgnoredWindows)
    (l : List WindowRepr) (seen : List String) :
    selectedWindows other l seen = selectedWindows manager l seen := by
  induction l generalizing seen with
  | nil => rfl
  | cons w rest ih =>
    simp only [selectedWindows, shouldSkipWindow_congr manager other hi, hd, ih]

/-- C19: the windows one rendering pass selects (the loop of `createWindowIconWidgets`
before the icon lookup, and the forward pass of the taskbar).  Without de-duplication
they are the non-skipped entries in list order; with it they are the non-skipped
entries that are the first of their class among the non-skipped ones: a subsequence
with pairwise distinct classes in which every class of a non-skipped entry occurs.
Every pass starts with an empty set of seen classes, and its result is fixed by the
list, the de-duplication flag and the ignore list. -/
theorem renderPass_selection (manager : Workspaces) (ws : Workspace) :
    (manager.deduplicateWindows = false →
      renderPass manager ws.m_windowMap =
        ws.m_windowMap.filter (fun w => !shouldSkipWindow manager w)) ∧
    (manager.deduplicateWindows = true →
      renderPass manager ws.m_windowMap =
        keepFirstOfClass [] (ws.m_windowMap.filter (fun w => !shouldSkipWindow manager w)) ∧
      (renderPass manager ws.m_windowMap).Sublist
        (ws.m_windowMap.filter (fun w => !shouldSkipWindow manager w)) ∧
      ((renderPass manager ws.m_windowMap).map WindowRepr.window_class).Nodup ∧
      ∀ w ∈ ws.m_windowMap, shouldSkipWindow manager w = false →
        w.window_class ∈ (renderPass manager ws.m_windowMap).map WindowRepr.window_class) ∧
    (∀ forceSmaller, createWindowIconWidgets manager ws forceSmaller =
      ((renderPass manager ws.m_windowMap).filter
        (fun w => manager.iconAvailable w.window_class)).map
        (fun w => Item.icon w (forceSmaller || ws.isSpecial))) ∧
    (manager.taskbarReverseDirection = false →
      taskbarWindows manager ws = renderPass manager ws.m_windowMap) ∧
    renderPass manager ws.m_windowMap = selectedWindows manager ws.m_windowMap [] ∧
    (∀ other : Workspaces, other.deduplicateWindows = manager.deduplicateWindows →
      other.getIgnoredWindows = manager.getIgnoredWindows →
      renderPass other ws.m_windowMap = renderPass manager ws.m_windowMap) := by
  refine ⟨?_, ?_, fun _ => rfl, ?_, rfl, ?_⟩
  · intro h
    exact selectedWindows_no_dedup manager h _ _
  · intro h
    have heq : renderPass manager ws.m_windowMap =
        keepFirstOfClass [] (ws.m_windowMap.filter (fun w => !shouldSkipWindow manager w)) :=
      selectedWindows_dedup manager h _ [] [] (by simp)
    refine ⟨heq, ?_, ?_, ?_⟩
    · rw [heq]; exact keepFirstOfClass_sublist _ _
    · rw [heq]; exact keepFirstOfClass_nodup _ _
    · intro w hw hs
      rw [heq]
      have hmem : w ∈ ws.m_windowMap.filter (fun w => !shouldSkipWindow manager w) :=
        List.mem_filter.mpr ⟨hw, by simp [hs]⟩
      rcases keepFirstOfClass_covers [] _ w hmem with h' | h'
      · simp at h'
      · exact h'
  · intro h
    simp [taskbarWindows, h]
  · intro other hd hi
    exact selectedWindows_congr manager other hd hi _ _

theorem renderPass_selection_witness :
    renderPass dedupManager [winA, winB, winC] = [winA, winB] ∧
    renderPass ignoringManager [winA, winB, winC] = [winB] :=
  ⟨((renderPass_selection dedupManager
      { workspace5 with m_windowMap := [winA, winB, winC] }).2.1 rfl).1.trans (by decide),
    ((renderPass_selection ignoringManager
      { workspace5 with m_windowMap := [winA, winB, winC] }).1 rfl).trans (by decide)⟩

/-! ## Display branches -/

theorem any_item_isSpecialSection (l : List Item) :
    (l.map Widget.item).any Widget.isSpecialSection = false := by
  induction l with
  | nil => rfl
  | cons i rest ih => simp [Widget.isSpecialSection, ih]

theorem combinedBox_hasSpecialSection (manager : Workspaces) (ws pairedSpecial : Workspace) :
    (combinedBox manager ws pairedSpecial).any Widget.isSpecialSection =
      hasSpecialWindows pairedSpecial := by
  unfold combinedBox
  simp only [List.any_append]
  cases hasSpecialWindows pairedSpecial <;>
    cases (createWindowIconWidgets manager ws false).isEmpty <;>
    cases manager.showWorkspaceNumber <;>
    cases (decide (ws.id > 0)) <;>
    simp [Widget.isSpecialSection, any_item_isSpecialSection]

theorem hasSpecialWindows_iff (p : Workspace) :
    hasSpecialWindows p = true ↔ (p.m_windows > 0 ∨ p.m_windowMap ≠ []) := by
  unfold hasSpecialWindows
  cases p.m_windowMap <;> simp

/-- What a shown workspace displays in the regular mode, by the kind of the
workspace and the pointer to a paired special workspace. -/
theorem update_shown (manager : Workspaces) (ws : Workspace) (paired : Option Workspace)
    (htb : manager.enableTaskbar = false) (d : Display)
    (hd : update manager ws paired = some d) :
    (ws.isSpecial = false ∧ ∃ p, paired = some p ∧
        d = Display.Combined (combinedBox manager ws p)) ∨
    (ws.isSpecial = false ∧ paired = none ∧ ∃ box : List Item, d = Display.Regular (box.map Widget.item)) ∨
    (ws.isSpecial = true ∧ ∃ box : List Item, d = Display.Special (box.map Widget.item)) := by
  unfold update at hd
  split at hd
  · cases hd
  split at hd
  · cases hd
  split at hd
  · cases hd
  split at hd
  · rename_i h4
    exact absurd h4 (by simp [htb])
  cases hsp : ws.isSpecial
  · cases paired with
    | none =>
      simp only [hsp, Bool.not_false, if_true] at hd
      right; left
      refine ⟨rfl, rfl, ?_⟩
      refine ⟨[Item.label] ++ createWindowIconWidgets manager ws false ++
        (if manager.showWorkspaceNumber && decide (ws.id > 0) then
          [Item.number ws.id] else []), ?_⟩
      rw [← Option.some.inj hd]
      split <;> simp
    | some p =>
      simp only [hsp, Bool.not_false, if_true] at hd
      left
      exact ⟨rfl, p, rfl, (Option.some.inj hd).symm⟩
  · simp only [hsp, Bool.not_true, Bool.false_eq_true, if_false, if_true] at hd
    right; right
    refine ⟨rfl, ?_⟩
    refine ⟨[Item.indicator] ++ createWindowIconWidgets manager ws true ++
      (if manager.showSpecialWorkspaceNumber && decide (ws.id ≠ -99) then
        specialNumberLabel ws.name else []), ?_⟩
    rw [← Option.some.inj hd]
    split <;> simp

/-- C20, as stated, fails: the regular workspace `5` paired with the special workspace
`sp5`, which has no window by count or by tracked list, takes the combined branch. -/
theorem update_combined_without_special_windows :
    ¬ ∀ (manager : Workspaces) (ws : Workspace) (paired : Option Workspace),
      manager.enableTaskbar = false →
      ((∃ box, update manager ws paired = some (Display.Combined box)) ↔
        (ws.isSpecial = false ∧
          ∃ p, paired = some p ∧ (p.m_windows > 0 ∨ p.m_windowMap ≠ []))) := by
  intro h
  have h5 := (h plainManager workspace5 (some specialSp5) rfl).mp
    ⟨[Widget.item Item.label], by decide⟩
  obtain ⟨_, p, hp, hw⟩ := h5
  cases hp
  revert hw
  decide

/-- C20, amended: in the regular mode a workspace that is shown takes exactly one of
three branches: Combined exactly when it is not special and has a paired special
workspace (with or without windows), Regular exactly when it is not special and has
none, Special exactly when it is special.  Its display holds the section of the paired
special workspace exactly when it is not special and the paired special workspace
exists and has a window by reported count or by tracked list. -/
theorem update_branch (manager : Workspaces) (ws : Workspace) (paired : Option Workspace)
    (htb : manager.enableTaskbar = false) (d : Display)
    (hd : update manager ws paired = some d) :
    ((∃ box, d = Display.Combined box) ↔ (ws.isSpecial = false ∧ ∃ p, paired = some p)) ∧
    ((∃ box, d = Display.Regular box) ↔ (ws.isSpecial = false ∧ paired = none)) ∧
    ((∃ box, d = Display.Special box) ↔ ws.isSpecial = true) ∧
    ((∃ box, d = Display.Combined box) ∨ (∃ box, d = Display.Regular box) ∨
      (∃ box, d = Display.Special box)) ∧
    (d.hasSpecialSection = true ↔
      (ws.isSpecial = false ∧
        ∃ p, paired = some p ∧ (p.m_windows > 0 ∨ p.m_windowMap ≠ []))) := by
  rcases update_shown manager ws paired htb d hd with
    ⟨hs, p, hp, rfl⟩ | ⟨hs, hp, box, rfl⟩ | ⟨hs, box, rfl⟩
  · subst hp
    refine ⟨?_, ?_, ?_, Or.inl ⟨_, rfl⟩, ?_⟩
    · simp [hs]
    · simp
    · simp [hs]
    · simp only [Display.hasSpecialSection, combinedBox_hasSpecialSection,
        hasSpecialWindows_iff, hs, true_and]
      constructor
      · intro h; exact ⟨p, rfl, h⟩
      · rintro ⟨q, hq, h⟩
        cases hq
        exact h
  · subst hp
    refine ⟨?_, ?_, ?_, Or.inr (Or.inl ⟨_, rfl⟩), ?_⟩
    · simp
    · simp [hs]
    · simp [hs]
    · simp [Display.hasSpecialSection, any_item_isSpecialSection]
  · refine ⟨?_, ?_, ?_, Or.inr (Or.inr ⟨_, rfl⟩), ?_⟩
    · simp [hs]
    · simp [hs]
    · simp [hs]
    · simp [Display.hasSpecialSection, any_item_isSpecialSection, hs]

theorem update_branch_witness :
    update plainManager workspace5 (some specialSp5) =
        some (Display.Combined [Widget.item Item.label]) ∧
      (Display.Combined [Widget.item Item.label]).hasSpecialSection = false :=
  ⟨by decide,
    by
      have h := (update_branch plainManager workspace5 (some specialSp5) rfl
        (Display.Combined [Widget.item Item.label]) (by decide)).2.2.2.2
      cases hb : (Display.Combined [Widget.item Item.label]).hasSpecialSection with
      | false => rfl
      | true =>
        obtain ⟨_, p, hp, hw⟩ := h.mp hb
        cases hp
        revert hw
        decide⟩

/-! ## Insertion and window-opened routing -/

/-- The first entry that satisfies a test splits the list. -/
theorem first_split {α : Type} (p : α → Prop) [DecidablePred p] (l : List α)
    (h : ∃ x ∈ l, p x) :
    ∃ l1 e l2, l = l1 ++ e :: l2 ∧ p e ∧ ∀ x ∈ l1, ¬ p x := by
  induction l with
  | nil => obtain ⟨x, hx, _⟩ := h; cases hx
  | cons a rest ih =>
    by_cases ha : p a
    · exact ⟨[], a, rest, rfl, ha, fun x hx => by cases hx⟩
    · obtain ⟨x, hx, hpx⟩ := h
      rcases List.mem_cons.mp hx with heq | hmem
      · subst heq; exact absurd hpx ha
      · obtain ⟨l1, e, l2, hl, he, h1⟩ := ih ⟨x, hmem, hpx⟩
        refine ⟨a :: l1, e, l2, by rw [hl]; rfl, he, ?_⟩
        intro y hy
        rcases List.mem_cons.mp hy with heq | hmem'
        · subst heq; exact ha
        · exact h1 y hmem'

theorem accepted_iff (t : Bool) (p : WindowCreationPayload) :
    accepted t p = true ↔ p.isEmpty = false ∧ (p.repr.empty = false ∨ t = true) := by
  unfold accepted
  cases p.isEmpty <;> cases p.repr.empty <;> cases t <;> simp

/-! ## The claims on routing, insertion, construction and hiding -/

/-- C22: `onWindowOpened` returns true exactly when the candidate's workspace name
equals the name of the workspace; when it returns false the workspace, its window list
included, is unchanged; when it returns true the window list is the one
`insertWindow` makes of the candidate and nothing else changes. -/
theorem onWindowOpened_spec (manager : Workspaces) (ws : Workspace)
    (payload : WindowCreationPayload) :
    ((onWindowOpened manager ws payload).1 = true ↔ payload.getWorkspaceName = ws.name) ∧
    ((onWindowOpened manager ws payload).1 = false →
      (onWindowOpened manager ws payload).2 = ws) ∧
    ((onWindowOpened manager ws payload).1 = true →
      (onWindowOpened manager ws payload).2 =
        { ws with m_windowMap := insertWindow manager.enableTaskbar payload ws.m_windowMap } ∧
      (onWindowOpened manager ws payload).2.m_windowMap =
        insertWindow manager.enableTaskbar payload ws.m_windowMap) := by
  unfold onWindowOpened
  by_cases h : payload.getWorkspaceName = ws.name
  · simp [h]
  · simp [h]

theorem onWindowOpened_spec_witness :
    (onWindowOpened plainManager workspace5 (payloadOf winA)).1 = false ∧
    (onWindowOpened plainManager workspace5 (payloadOf winA)).2 = workspace5 ∧
    (onWindowOpened plainManager { workspace5 with m_name := "1" } (payloadOf winA)).2.m_windowMap
      = [winA] :=
  ⟨by decide,
    (onWindowOpened_spec plainManager workspace5 (payloadOf winA)).2.1 (by decide),
    ((onWindowOpened_spec plainManager { workspace5 with m_name := "1" }
      (payloadOf winA)).2.2 (by decide)).2.trans (by decide)⟩

/-- C23: an accepted candidate (payload not empty, and representation not empty or
taskbar mode on) whose address is in the list replaces the first entry with that
address, in place, and nothing else changes; an accepted candidate whose address is
not in the list is appended as the last entry; a rejected candidate leaves the list
unchanged; without taskbar mode a candidate with an empty representation is
rejected. -/
theorem insertWindow_spec (t : Bool) (p : WindowCreationPayload) (m : List WindowRepr) :
    (accepted t p = true ↔ p.isEmpty = false ∧ (p.repr.empty = false ∨ t = true)) ∧
    (accepted t p = true → (∃ w ∈ m, w.address = p.getAddress) →
      ∃ l1 e l2, m = l1 ++ e :: l2 ∧ e.address = p.getAddress ∧
        (∀ w ∈ l1, w.address ≠ p.getAddress) ∧
        insertWindow t p m = l1 ++ p.repr :: l2 ∧
        (insertWindow t p m).length = m.length) ∧
    (accepted t p = true → (∀ w ∈ m, w.address ≠ p.getAddress) →
      insertWindow t p m = m ++ [p.repr]) ∧
    (accepted t p = false → insertWindow t p m = m) ∧
    (t = false → p.repr.empty = true → accepted t p = false ∧ insertWindow t p m = m) := by
  refine ⟨accepted_iff t p, ?_, ?_, ?_, ?_⟩
  · intro hacc hex
    obtain ⟨l1, e, l2, hm, he, h1⟩ :=
      first_split (fun w : WindowRepr => w.address = p.getAddress) m hex
    refine ⟨l1, e, l2, hm, he, h1, ?_, ?_⟩
    · rw [hm]; exact insertWindow_split t p l1 l2 e hacc he h1
    · rw [hm, insertWindow_split t p l1 l2 e hacc he h1]
      simp
  · intro hacc hab
    exact insertWindow_absent t p m hacc hab
  · intro hrej
    exact insertWindow_of_rejected t p m hrej
  · intro ht he
    have hrej : accepted t p = false := by
      unfold accepted
      simp [ht, he]
    exact ⟨hrej, insertWindow_of_rejected t p m hrej⟩

theorem insertWindow_spec_witness :
    (∃ l1 e l2, [winA, winB, winC] = l1 ++ e :: l2 ∧
      e.address = (payloadOf (winB.setActive true)).getAddress ∧
      (∀ w ∈ l1, w.address ≠ (payloadOf (winB.setActive true)).getAddress) ∧
      insertWindow false (payloadOf (winB.setActive true)) [winA, winB, winC] =
        l1 ++ (payloadOf (winB.setActive true)).repr :: l2 ∧
      (insertWindow false (payloadOf (winB.setActive true)) [winA, winB, winC]).length =
        [winA, winB, winC].length) ∧
    insertWindow false (payloadOf winC) [winA, winB] = [winA, winB, winC] ∧
    insertWindow false { payloadOf winC with repr_rewrite := "" } [winA, winB] = [winA, winB] :=
  ⟨(insertWindow_spec false (payloadOf (winB.setActive true)) [winA, winB, winC]).2.1
      (by decide) ⟨winB, by decide, by decide⟩,
    ((insertWindow_spec false (payloadOf winC) [winA, winB]).2.2.1 (by decide)
      (by decide)).trans (by decide),
    ((insertWindow_spec false { payloadOf winC with repr_rewrite := "" }
      [winA, winB]).2.2.2.2 rfl (by decide)).2⟩

/-! ## Hide rules of `update` -/

/-- Past the three hide rules `update` always shows something. -/
theorem update_of_shown (manager : Workspaces) (ws : Workspace) (paired : Option Workspace)
    (h1 : (manager.persistentOnly && !ws.isPersistent) = false)
    (h2 : (manager.activeOnly && !ws.isActive && !ws.isPersistent && !ws.isVisible &&
      !ws.isSpecial) = false)
    (h3 : (manager.specialVisibleOnly && ws.isSpecial && !ws.isVisible) = false) :
    (update manager ws paired).isSome = true := by
  unfold update
  rw [h1, h2, h3]
  simp only [Bool.false_eq_true, if_false]
  split
  · rfl
  · split
    · rfl
    · split
      · rfl
      · split <;> rfl

theorem update_isSome_iff (manager : Workspaces) (ws : Workspace) (paired : Option Workspace) :
    (update manager ws paired).isSome = true ↔
      ¬ hiddenByPersistentOnly manager ws ∧ ¬ hiddenByActiveOnly manager ws ∧
        ¬ hiddenBySpecialVisibleOnly manager ws := by
  unfold hiddenByPersistentOnly hiddenByActiveOnly hiddenBySpecialVisibleOnly
  cases h1 : (manager.persistentOnly && !ws.isPersistent)
  · cases h2 : (manager.activeOnly && !ws.isActive && !ws.isPersistent && !ws.isVisible &&
      !ws.isSpecial)
    · cases h3 : (manager.specialVisibleOnly && ws.isSpecial && !ws.isVisible)
      · rw [update_of_shown manager ws paired h1 h2 h3]
        revert h1 h2 h3
        cases manager.persistentOnly <;> cases ws.isPersistent <;> cases manager.activeOnly <;>
          cases ws.isActive <;> cases ws.isVisible <;> cases ws.isSpecial <;>
          cases manager.specialVisibleOnly <;> simp
      · have hu : update manager ws paired = none := by
          unfold update
          rw [h1, h2, h3]
          simp
        rw [hu]
        revert h3
        cases manager.specialVisibleOnly <;> cases ws.isSpecial <;> cases ws.isVisible <;> simp
    · have hu : update manager ws paired = none := by
        unfold update
        rw [h1, h2]
        simp
      rw [hu]
      revert h2
      cases manager.activeOnly <;> cases ws.isActive <;> cases ws.isPersistent <;>
        cases ws.isVisible <;> cases ws.isSpecial <;> simp
  · have hu : update manager ws paired = none := by
      unfold update
      rw [h1]
      simp
    rw [hu]
    revert h1
    cases manager.persistentOnly <;> cases ws.isPersistent <;> simp

/-- C25: `update` leaves the workspace shown exactly when none of the three hide
rules applies: persistent-only with a workspace that is not persistent; active-only
with a workspace that is none of active, persistent, visible or special;
special-visible-only with a special workspace that is not visible.  So active-only
never hides an active workspace, nor a special one. -/
theorem update_shown_iff (manager : Workspaces) (ws : Workspace) (paired : Option Workspace) :
    ((update manager ws paired).isSome = true ↔
      ¬ hiddenByPersistentOnly manager ws ∧ ¬ hiddenByActiveOnly manager ws ∧
        ¬ hiddenBySpecialVisibleOnly manager ws) ∧
    (ws.isActive = true → ¬ hiddenByActiveOnly manager ws) ∧
    (ws.isSpecial = true → ¬ hiddenByActiveOnly manager ws) ∧
    (ws.isActive = true → manager.persistentOnly = false →
      manager.specialVisibleOnly = false → (update manager ws paired).isSome = true) ∧
    (ws.isSpecial = true → manager.persistentOnly = false →
      manager.specialVisibleOnly = false → (update manager ws paired).isSome = true) := by
  have hiff := update_isSome_iff manager ws paired
  refine ⟨hiff, ?_, ?_, ?_, ?_⟩
  · intro ha h
    rw [h.2.1] at ha
    exact absurd ha (by decide)
  · intro hs h
    rw [h.2.2.2.2] at hs
    exact absurd hs (by decide)
  · intro ha hp hv
    refine hiff.mpr ⟨?_, ?_, ?_⟩
    · intro h; rw [h.1] at hp; exact absurd hp (by decide)
    · intro h; rw [h.2.1] at ha; exact absurd ha (by decide)
    · intro h; rw [h.1] at hv; exact absurd hv (by decide)
  · intro hs hp hv
    refine hiff.mpr ⟨?_, ?_, ?_⟩
    · intro h; rw [h.1] at hp; exact absurd hp (by decide)
    · intro h; rw [h.2.2.2.2] at hs; exact absurd hs (by decide)
    · intro h; rw [h.1] at hv; exact absurd hv (by decide)

theorem update_shown_iff_witness :
    (update { plainManager with activeOnly := true } workspace5 none).isSome = true ∧
    (update { plainManager with activeOnly := true } busySp5 none).isSome = true ∧
    ¬ hiddenByActiveOnly { plainManager with activeOnly := true } workspace5 :=
  ⟨(update_shown_iff { plainManager with activeOnly := true } workspace5 none).2.2.2.1
      rfl rfl rfl,
    (update_shown_iff { plainManager with activeOnly := true } busySp5 none).2.2.2.2
      rfl rfl rfl,
    (update_shown_iff { plainManager with activeOnly := true } workspace5 none).2.1 rfl⟩

/-- C21 fails on the code: the regular workspace `5`, paired with the special
workspace `sp5` that holds a window, shows the section of `sp5` in its combined
display, and the `update` of `sp5` itself shows the standalone special display, whatever
pointer `sp5` holds. -/
theorem update_paired_special_shown_twice :
    update plainManager workspace5 (some busySp5) =
      some (Display.Combined [Widget.item Item.label,
        Widget.special_event_box [Item.indicator, Item.icon winB true]]) ∧
    update plainManager busySp5 none =
      some (Display.Special [Widget.item Item.indicator, Widget.item (Item.icon winB true)]) ∧
    update plainManager busySp5 (some workspace5) =
      some (Display.Special [Widget.item Item.indicator, Widget.item (Item.icon winB true)]) := by
  decide

/-- C24 fails on the code: with an id other than `-99`, such as `5` or the id `-1337`
of a named workspace, the raw name `special` starts with `special` and has 7
characters, so `substr(8)` throws `std::out_of_range` and the constructor fails. -/
theorem constructor_throws_on_bare_special :
    starts_with "special" "special" = true ∧ "special".data.length = 7 ∧
    substr "special" 8 = none ∧ Workspace.Workspace 5 "special" = none ∧
    Workspace.Workspace (-1337) "special" = none := by
  decide

/-! ## Superscript numbers -/

theorem foldl_append_eq (l : List String) (acc : String) :
    l.foldl (fun r s => r ++ s) acc = acc ++ l.foldl (fun r s => r ++ s) "" := by
  induction l generalizing acc with
  | nil => simp
  | cons x xs ih =>
    simp only [List.foldl_cons, String.empty_append]
    rw [ih (acc ++ x), ih x, String.append_assoc]

theorem join_cons (x : String) (xs : List String) :
    String.join (x :: xs) = x ++ String.join xs := by
  unfold String.join
  simp only [List.foldl_cons, String.empty_append]
  exact foldl_append_eq xs x

theorem digit_bounds (c : Char) (h : c.isDigit = true) : 48 ≤ c.toNat ∧ c.toNat ≤ 57 := by
  simp only [Char.isDigit, Bool.and_eq_true, decide_eq_true_eq] at h
  exact h

/-- The loop of `toSuperscript` over a run of digits appends the glyph of each. -/
theorem superscript_loop (ds : List Char) (hd : ∀ c ∈ ds, c.isDigit = true) (acc : String) :
    ds.foldl
      (fun result c =>
        let digit : Int := (c.toNat : Int) - ('0'.toNat : Int)
        if digit ≥ 0 ∧ digit ≤ 9 then result ++ superscripts.getD digit.toNat "" else result)
      acc = acc ++ String.join (ds.map glyphOf) := by
  induction ds generalizing acc with
  | nil => simp [String.join]
  | cons c cs ih =>
    have hb := digit_bounds c (hd c (List.mem_cons_self _ _))
    have h0 : '0'.toNat = 48 := rfl
    have hrange : ((c.toNat : Int) - ('0'.toNat : Int)) ≥ 0 ∧
        ((c.toNat : Int) - ('0'.toNat : Int)) ≤ 9 := by
      rw [h0]; omega
    have hidx : ((c.toNat : Int) - ('0'.toNat : Int)).toNat = digitValue c := by
      unfold digitValue
      rw [h0]; omega
    simp only [List.foldl_cons, List.map_cons, join_cons]
    rw [if_pos hrange, hidx, ih (fun x hx => hd x (List.mem_cons_of_mem _ hx)),
      String.append_assoc]
    rfl

theorem glyphOf_length (c : Char) (h : c.isDigit = true) : (glyphOf c).length = 1 := by
  have hb := digit_bounds c h
  have hk : digitValue c < 10 := by
    unfold digitValue
    have h0 : '0'.toNat = 48 := rfl
    rw [h0]; omega
  unfold glyphOf
  generalize digitValue c = k at hk
  interval_cases k <;> rfl

theorem join_glyph_length (ds : List Char) (hd : ∀ c ∈ ds, c.isDigit = true) :
    (String.join (ds.map glyphOf)).length = ds.length := by
  induction ds with
  | nil => rfl
  | cons c cs ih =>
    rw [List.map_cons, join_cons, String.length_append,
      glyphOf_length c (hd c (List.mem_cons_self _ _)),
      ih (fun x hx => hd x (List.mem_cons_of_mem _ hx)), List.length_cons]
    omega

theorem toSuperscript_ofNat (k : Nat) : toSuperscript (Int.ofNat k) = glyphString k := by
  by_cases hk : k ≤ 9
  · interval_cases k <;> decide
  · have hgt : (Int.ofNat k) > 9 := by
      have : (9 : Int) < (k : Int) := by omega
      exact this
    unfold toSuperscript
    rw [if_pos (Or.inr hgt)]
    have hrepr : to_string (Int.ofNat k) = Nat.repr k := rfl
    rw [hrepr, superscript_loop _ (repr_facts k).2.1, String.empty_append]
    rfl

theorem toSuperscript_negSucc (k : Nat) :
    toSuperscript (Int.negSucc k) = glyphString (k + 1) := by
  unfold toSuperscript
  rw [if_pos (Or.inl (Int.negSucc_lt_zero k))]
  have hdata : (to_string (Int.negSucc k)).data = '-' :: (Nat.repr (k + 1)).data := by
    show ("-" ++ Nat.repr (k + 1)).data = _
    simp [String.data_append]
  rw [hdata, List.foldl_cons]
  have hminus : ¬ (((('-' : Char).toNat : Int) - ('0'.toNat : Int)) ≥ 0 ∧
      ((('-' : Char).toNat : Int) - ('0'.toNat : Int)) ≤ 9) := by decide
  simp only [if_neg hminus]
  rw [superscript_loop _ (repr_facts (k + 1)).2.1, String.empty_append]
  rfl

theorem toSuperscript_eq (n : Int) : toSuperscript n = glyphString n.natAbs := by
  cases n with
  | ofNat k => exact toSuperscript_ofNat k
  | negSucc k => exact toSuperscript_negSucc k

theorem glyphString_length (n : Nat) : (glyphString n).length = (Nat.repr n).data.length :=
  join_glyph_length _ (repr_facts n).2.1

/-- C26: for `n >= 0`, `toSuperscript(n)` is the string of the superscript glyphs of
the decimal digits of `n`, most significant first, one glyph for each digit, a single
glyph for `0..9`, never empty; for negative `n` the minus sign gives no glyph and the
result is the glyph string of the digits of `n` without a sign. -/
theorem toSuperscript_spec (n : Int) :
    (0 ≤ n → toSuperscript n = glyphString n.toNat) ∧
    (n < 0 → toSuperscript n = glyphString n.natAbs) ∧
    (0 ≤ n → n ≤ 9 →
      toSuperscript n = superscripts.getD n.toNat "" ∧ (toSuperscript n).length = 1) ∧
    (toSuperscript n).length = (Nat.repr n.natAbs).data.length ∧
    0 < (toSuperscript n).length ∧ toSuperscript n ≠ "" := by
  have hlen : (toSuperscript n).length = (Nat.repr n.natAbs).data.length := by
    rw [toSuperscript_eq, glyphString_length]
  have hpos : 0 < (toSuperscript n).length := by
    rw [hlen]
    exact List.length_pos.mpr (repr_facts n.natAbs).1
  refine ⟨?_, ?_, ?_, hlen, hpos, ?_⟩
  · intro h0
    rw [toSuperscript_eq]
    congr 1
    omega
  · intro _
    exact toSuperscript_eq n
  · intro h0 h9
    obtain ⟨k, rfl⟩ := Int.eq_ofNat_of_zero_le h0
    have hk : k ≤ 9 := by omega
    interval_cases k <;> decide
  · intro h
    rw [h] at hpos
    exact absurd hpos (by decide)

theorem toSuperscript_spec_witness :
    toSuperscript 42 = "⁴²" ∧ toSuperscript (-17) = "¹⁷" ∧ toSuperscript 7 = "⁷" :=
  ⟨((toSuperscript_spec 42).1 (by decide)).trans (by decide),
    ((toSuperscript_spec (-17)).2.1 (by decide)).trans (by decide),
    (((toSuperscript_spec 7).2.2.1 (by decide) (by decide)).1).trans (by decide)⟩

end Hyprland
